import Mathlib

/-!
Windows Registry hive engine (tsk3/fs/regfs.c)

A shallow embedding of the cell loader `reg_load_cell`, of the block walker
`reg_block_walk`, of the header loader `reg_load_regf` with the open routine
`regfs_open`, of the string codec `regfs_utf16to8` and of the record decoders behind
`reg_istat`, followed by the properties established about them.

Conventions of the embedding.

* Addresses (`TSK_INUM_T`, `TSK_DADDR_T`) are natural numbers.  A cell can only be
  loaded below the image size, which the image layer keeps in a signed 64-bit offset,
  and a loaded cell is shorter than `2 ^ 32`, so the 64-bit sums of the source are exact.
* Variables that the source declares with 32 bits (`uint32_t len`,
  `uint32_t current_hbin_start`) are kept modulo `2 ^ 32`, see `u32`.
* `HBIN_SIZE` is a macro of `tsk_regfs.h`, which is not part of the source; it is a
  parameter of every function that uses it.  It is an integer constant, so a sum of a
  `uint32_t` and `HBIN_SIZE` is a 32-bit unsigned sum.  The same holds for the macros
  `FIRST_HBIN_OFFSET` and `REG_REGF_MAGIC`.
* The structures `REGF` and `REGFS_CELL_NK` are declared in `tsk_regfs.h` too: the size
  of the first and the offsets of the fields consulted are parameters (`REGF_DECL`,
  `REGFS_CELL_NK_DECL`).
* `regfs_open` sets `fs->endian = TSK_LIT_ENDIAN` unconditionally, so the byte getters
  are the little-endian ones.
* The converter `tsk_UTF16toUTF8` of the base library is a parameter of the functions
  that call it.
* The lines printed to `hFile` are recorded as values of `ISTAT_LINE`; automatic arrays,
  which the source does not initialise, start with a content that is a parameter
  (`REG_ISTAT_AUTO`).
-/

namespace Regfs

/-- Error codes that regfs.c stores with `tsk_error_set_errno`. -/
inductive TSK_ERR_ENUM where
  | TSK_ERR_FS_BLK_NUM
  | TSK_ERR_FS_READ
  | TSK_ERR_FS_INODE_COR
  | TSK_ERR_FS_WALK_RNG
  | TSK_ERR_FS_UNICODE
  | TSK_ERR_FS_UNSUPFUNC
  | TSK_ERR_FS_ARG
  deriving DecidableEq, Repr

/-- Record types a cell can be classified as (the `cell->type` values of the switch in
`reg_load_cell`). -/
inductive TSK_REGFS_RECORD_TYPE_ENUM where
  | TSK_REGFS_RECORD_TYPE_NK
  | TSK_REGFS_RECORD_TYPE_VK
  | TSK_REGFS_RECORD_TYPE_LF
  | TSK_REGFS_RECORD_TYPE_LH
  | TSK_REGFS_RECORD_TYPE_LI
  | TSK_REGFS_RECORD_TYPE_RI
  | TSK_REGFS_RECORD_TYPE_SK
  | TSK_REGFS_RECORD_TYPE_DB
  | TSK_REGFS_RECORD_TYPE_UNKNOWN
  deriving DecidableEq, Repr

open TSK_ERR_ENUM TSK_REGFS_RECORD_TYPE_ENUM

/-- One byte of the image. -/
abbrev uint8_t := Fin 256

/-- The image behind a hive: its size in bytes and the byte stored at every offset
below the size. -/
structure TSK_IMG_INFO where
  size : Nat
  data : Nat → uint8_t

/-- The fields of `TSK_FS_INFO` that the cell loader and the walker consult. -/
structure TSK_FS_INFO where
  first_block : Nat
  last_block : Nat
  img_info : TSK_IMG_INFO

/-- The fields of `REGFS_CELL` written by `reg_load_cell`.  The structure is declared in
`tsk_regfs.h` (not part of the source); `length` is a 32-bit unsigned field. -/
structure REGFS_CELL where
  inum : Nat
  is_allocated : Bool
  length : Nat
  type : TSK_REGFS_RECORD_TYPE_ENUM
  deriving DecidableEq, Repr

/-- Outcome of a fallible call: `TSK_OK` with the value produced, or `TSK_ERR` with the
error code left in the error slot. -/
inductive TSK_RETVAL_ENUM (α : Type) where
  | TSK_OK (val : α)
  | TSK_ERR (errno : TSK_ERR_ENUM)
  deriving DecidableEq, Repr

open TSK_RETVAL_ENUM

/-- Reduction of a value to an unsigned 32-bit variable. -/
def u32 (x : Nat) : Nat := x % 2 ^ 32

/-- The `len` bytes stored in the image from offset `off` on. -/
def image_bytes (fs : TSK_FS_INFO) (off len : Nat) : List uint8_t :=
  (List.range len).map (fun i => fs.img_info.data (off + i))

/-- The byte of the image at offset `a`, when the image reaches that far. -/
def image_byte (fs : TSK_FS_INFO) (a : Nat) : Option uint8_t :=
  if a < fs.img_info.size then some (fs.img_info.data a) else none

/-- Modelled from the spec: the byte-range read of the image provider
(`read(address, length) -> bytes | ShortRead`, in the source `tsk_fs_read`, which is not
part of regfs.c).  It yields the `len` bytes at `off` when the image holds all of them,
and nothing (a count different from `len`) otherwise. -/
def tsk_fs_read (fs : TSK_FS_INFO) (off len : Nat) : Option (List uint8_t) :=
  if off + len ≤ fs.img_info.size then some (image_bytes fs off len) else none

/-- Little-endian unsigned 16-bit value of the first two bytes of a buffer. -/
def tsk_getu16 (buf : List uint8_t) : Nat :=
  (buf.getD 0 0).val + (buf.getD 1 0).val * 2 ^ 8

/-- Little-endian unsigned 32-bit value of the first four bytes of a buffer. -/
def tsk_getu32 (buf : List uint8_t) : Nat :=
  (buf.getD 0 0).val + (buf.getD 1 0).val * 2 ^ 8 + (buf.getD 2 0).val * 2 ^ 16
    + (buf.getD 3 0).val * 2 ^ 24

/-- Little-endian signed 32-bit value (two's complement) of the first four bytes. -/
def tsk_gets32 (buf : List uint8_t) : Int :=
  if tsk_getu32 buf < 2 ^ 31 then (tsk_getu32 buf : Int) else (tsk_getu32 buf : Int) - 2 ^ 32

/-- The `switch (type)` of `reg_load_cell`: the record type of a 16-bit tag. -/
def reg_record_type (type : Nat) : TSK_REGFS_RECORD_TYPE_ENUM :=
  if type = 0x6b76 then TSK_REGFS_RECORD_TYPE_VK
  else if type = 0x6b6e then TSK_REGFS_RECORD_TYPE_NK
  else if type = 0x666c then TSK_REGFS_RECORD_TYPE_LF
  else if type = 0x686c then TSK_REGFS_RECORD_TYPE_LH
  else if type = 0x696c then TSK_REGFS_RECORD_TYPE_LI
  else if type = 0x6972 then TSK_REGFS_RECORD_TYPE_RI
  else if type = 0x6b73 then TSK_REGFS_RECORD_TYPE_SK
  else if type = 0x6264 then TSK_REGFS_RECORD_TYPE_DB
  else TSK_REGFS_RECORD_TYPE_UNKNOWN

/-- The length and allocation state that `reg_load_cell` derives from the four bytes of
the length field: `len & 1 << 31` selects the allocated branch, whose length is
`-1 * tsk_gets32` stored in the 32-bit `length`; otherwise the length is the field. -/
def reg_cell_length (buf : List uint8_t) : Bool × Nat :=
  let len := u32 (tsk_getu32 buf)
  if len &&& (1 <<< 31) ≠ 0 then
    (true, Int.toNat ((-1 * tsk_gets32 buf) % 2 ^ 32))
  else
    (false, tsk_getu32 buf)

/-- What a call of `reg_load_cell` does: the value returned and the reads of the image
it issued, each as (offset, length), in order. -/
structure REG_LOAD where
  ret : TSK_RETVAL_ENUM REGFS_CELL
  reads : List (Nat × Nat)
  deriving DecidableEq, Repr

/-- The cell loader `reg_load_cell(fs, cell, inum)`. -/
def reg_load_cell (HBIN_SIZE : Nat) (fs : TSK_FS_INFO) (inum : Nat) : REG_LOAD :=
  if inum < fs.first_block ∨ inum > fs.last_block then
    ⟨TSK_ERR TSK_ERR_FS_BLK_NUM, []⟩
  else
    match tsk_fs_read fs inum 4 with
    | none => ⟨TSK_ERR TSK_ERR_FS_READ, [(inum, 4)]⟩
    | some buf =>
      let is_allocated := (reg_cell_length buf).1
      let length := (reg_cell_length buf).2
      if length ≥ HBIN_SIZE then
        ⟨TSK_ERR TSK_ERR_FS_INODE_COR, [(inum, 4)]⟩
      else
        match tsk_fs_read fs (inum + 4) 2 with
        | none => ⟨TSK_ERR TSK_ERR_FS_READ, [(inum, 4), (inum + 4, 2)]⟩
        | some buf2 =>
          ⟨TSK_OK ⟨inum, is_allocated, length, reg_record_type (tsk_getu16 buf2)⟩,
            [(inum, 4), (inum + 4, 2)]⟩

/-- The filter `a_flags` of a walk: the bits `TSK_FS_BLOCK_WALK_FLAG_ALLOC`,
`TSK_FS_BLOCK_WALK_FLAG_UNALLOC`, `TSK_FS_BLOCK_WALK_FLAG_CONT` and
`TSK_FS_BLOCK_WALK_FLAG_META` of the flag word. -/
structure TSK_FS_BLOCK_WALK_FLAG_ENUM where
  ALLOC : Bool
  UNALLOC : Bool
  CONT : Bool
  META : Bool
  deriving DecidableEq, Repr

/-- The classification `myflags` of a cell: the bits `TSK_FS_BLOCK_FLAG_ALLOC`,
`TSK_FS_BLOCK_FLAG_UNALLOC`, `TSK_FS_BLOCK_FLAG_CONT` and `TSK_FS_BLOCK_FLAG_META`. -/
structure TSK_FS_BLOCK_FLAG_ENUM where
  ALLOC : Bool
  UNALLOC : Bool
  CONT : Bool
  META : Bool
  deriving DecidableEq, Repr

/-- The two sanity checks on `a_flags` at the head of `reg_block_walk`: when neither
ALLOC nor UNALLOC is set both are set, and when neither META nor CONT is set both are
set. -/
def reg_walk_flags (a_flags : TSK_FS_BLOCK_WALK_FLAG_ENUM) : TSK_FS_BLOCK_WALK_FLAG_ENUM :=
  let f1 : TSK_FS_BLOCK_WALK_FLAG_ENUM :=
    if a_flags.ALLOC = false ∧ a_flags.UNALLOC = false then
      ⟨true, true, a_flags.CONT, a_flags.META⟩
    else a_flags
  if f1.META = false ∧ f1.CONT = false then ⟨f1.ALLOC, f1.UNALLOC, true, true⟩ else f1

/-- The value of `myflags` the loop body computes for a loaded cell: ALLOC or UNALLOC
from `is_allocated`, then META for the eight known record types and CONT for
`TSK_REGFS_RECORD_TYPE_UNKNOWN`. -/
def reg_cell_flags (cell : REGFS_CELL) : TSK_FS_BLOCK_FLAG_ENUM :=
  let myflags : TSK_FS_BLOCK_FLAG_ENUM :=
    if cell.is_allocated then ⟨true, false, false, false⟩ else ⟨false, true, false, false⟩
  match cell.type with
  | TSK_REGFS_RECORD_TYPE_NK => ⟨myflags.ALLOC, myflags.UNALLOC, myflags.CONT, true⟩
  | TSK_REGFS_RECORD_TYPE_LF => ⟨myflags.ALLOC, myflags.UNALLOC, myflags.CONT, true⟩
  | TSK_REGFS_RECORD_TYPE_LH => ⟨myflags.ALLOC, myflags.UNALLOC, myflags.CONT, true⟩
  | TSK_REGFS_RECORD_TYPE_LI => ⟨myflags.ALLOC, myflags.UNALLOC, myflags.CONT, true⟩
  | TSK_REGFS_RECORD_TYPE_RI => ⟨myflags.ALLOC, myflags.UNALLOC, myflags.CONT, true⟩
  | TSK_REGFS_RECORD_TYPE_DB => ⟨myflags.ALLOC, myflags.UNALLOC, myflags.CONT, true⟩
  | TSK_REGFS_RECORD_TYPE_SK => ⟨myflags.ALLOC, myflags.UNALLOC, myflags.CONT, true⟩
  | TSK_REGFS_RECORD_TYPE_VK => ⟨myflags.ALLOC, myflags.UNALLOC, myflags.CONT, true⟩
  | TSK_REGFS_RECORD_TYPE_UNKNOWN => ⟨myflags.ALLOC, myflags.UNALLOC, true, myflags.META⟩

/-- One iteration of the `while` loop of `reg_block_walk`: the cursor `addr` and the bin
start `current_hbin_start` on entry, and the call of `reg_load_cell` made at `addr`. -/
structure REG_WALK_ITER where
  addr : Nat
  current_hbin_start : Nat
  load : REG_LOAD
  deriving DecidableEq, Repr

/-- A finished run of `reg_block_walk`: the value returned (1 on error, 0 otherwise),
the error code set, the filter after the sanity checks, the loop iterations in order,
and the invocations of the callback `a_action` (address and `myflags`) in order. -/
structure REG_WALK where
  ret : Nat
  errno : Option TSK_ERR_ENUM
  a_flags : TSK_FS_BLOCK_WALK_FLAG_ENUM
  iters : List REG_WALK_ITER
  calls : List (Nat × TSK_FS_BLOCK_FLAG_ENUM)
  deriving DecidableEq, Repr

/-- The test `addr + cell.length > current_hbin_start + HBIN_SIZE - 1` of the loop
body; the right-hand side is a 32-bit unsigned expression. -/
def reg_walk_overrun (HBIN_SIZE addr length current_hbin_start : Nat) : Prop :=
  addr + length > u32 (u32 (current_hbin_start + HBIN_SIZE) + (2 ^ 32 - 1))

instance (HBIN_SIZE addr length current_hbin_start : Nat) :
    Decidable (reg_walk_overrun HBIN_SIZE addr length current_hbin_start) := by
  unfold reg_walk_overrun
  infer_instance

/-- The bin start after `addr += cell.length` and the header skip
`if (addr > current_hbin_start + HBIN_SIZE) current_hbin_start += HBIN_SIZE`. -/
def reg_walk_next_hbin (HBIN_SIZE addr length current_hbin_start : Nat) : Nat :=
  if addr + length > u32 (current_hbin_start + HBIN_SIZE) then
    u32 (current_hbin_start + HBIN_SIZE)
  else current_hbin_start

/-- The cursor after `addr += cell.length` and the header skip, which resets it to
`current_hbin_start + 0x20` (a 32-bit sum) for the advanced bin start. -/
def reg_walk_next_addr (HBIN_SIZE addr length current_hbin_start : Nat) : Nat :=
  if addr + length > u32 (current_hbin_start + HBIN_SIZE) then
    u32 (u32 (current_hbin_start + HBIN_SIZE) + 0x20)
  else addr + length

/-- The `while (addr < a_end_blk)` loop of `reg_block_walk`, started with cursor `addr`
and bin start `current_hbin_start`.  `fuel` bounds the number of loop tests; `none`
means the loop is still running when the fuel is used up.  The body holds no call of
`a_action`, so `calls` reaches the end as it is. -/
def reg_block_walk_loop (HBIN_SIZE : Nat) (fs : TSK_FS_INFO) (a_end_blk : Nat)
    (a_flags : TSK_FS_BLOCK_WALK_FLAG_ENUM) (calls : List (Nat × TSK_FS_BLOCK_FLAG_ENUM)) :
    Nat → Nat → Nat → Option REG_WALK
  | 0, _, _ => none
  | fuel + 1, addr, current_hbin_start =>
    if addr < a_end_blk then
      let load := reg_load_cell HBIN_SIZE fs addr
      let iter : REG_WALK_ITER := ⟨addr, current_hbin_start, load⟩
      match load.ret with
      | TSK_ERR e => some ⟨1, some e, a_flags, [iter], calls⟩
      | TSK_OK cell =>
        if reg_walk_overrun HBIN_SIZE addr cell.length current_hbin_start then
          some ⟨1, some TSK_ERR_FS_BLK_NUM, a_flags, [iter], calls⟩
        else
          (reg_block_walk_loop HBIN_SIZE fs a_end_blk a_flags calls fuel
            (reg_walk_next_addr HBIN_SIZE addr cell.length current_hbin_start)
            (reg_walk_next_hbin HBIN_SIZE addr cell.length current_hbin_start)).map
              (fun r => ⟨r.ret, r.errno, r.a_flags, iter :: r.iters, r.calls⟩)
    else some ⟨0, none, a_flags, [], calls⟩

/-- The block walker `reg_block_walk(fs, a_start_blk, a_end_blk, a_flags, a_action,
a_ptr)`.  The allocation of the scratch block (`tsk_fs_block_alloc`) is taken to
succeed. -/
def reg_block_walk (HBIN_SIZE : Nat) (fs : TSK_FS_INFO) (a_start_blk a_end_blk : Nat)
    (a_flags : TSK_FS_BLOCK_WALK_FLAG_ENUM) (fuel : Nat) : Option REG_WALK :=
  if a_start_blk < fs.first_block ∨ a_start_blk > fs.last_block then
    some ⟨1, some TSK_ERR_FS_WALK_RNG, a_flags, [], []⟩
  else if a_end_blk < fs.first_block ∨ a_end_blk > fs.last_block then
    some ⟨1, some TSK_ERR_FS_WALK_RNG, a_flags, [], []⟩
  else
    reg_block_walk_loop HBIN_SIZE fs a_end_blk (reg_walk_flags a_flags) [] fuel a_start_blk
      (u32 (a_start_blk - a_start_blk % HBIN_SIZE))

/-- The synthetic hive of scenario C for a bin size of 4096: a 4096-byte header block
and three bins at 0x1000, 0x2000 and 0x3000, each a 0x20-byte bin header followed by
allocated 0x20-byte cells (length field 0xFFFFFFE0) whose tag bytes are zero. -/
def scenarioC_img : TSK_IMG_INFO :=
  ⟨0x4000, fun a =>
    if a % 0x1000 < 0x20 then 0
    else if a % 0x20 = 0 then 0xe0
    else if a % 0x20 < 4 then 0xff
    else 0⟩

/-- The hive descriptor of scenario C: cells start at 0x1020, and `last_block` leaves
room for the end of the requested range. -/
def scenarioC_fs : TSK_FS_INFO := ⟨0x1020, 0x5000, scenarioC_img⟩

/-- Whether a classification `myflags` matches the filter `a_flags`, on the allocation
axis and on the metadata/content axis (specification, section 4.3, step 2). -/
def spec_matches (a_flags : TSK_FS_BLOCK_WALK_FLAG_ENUM) (myflags : TSK_FS_BLOCK_FLAG_ENUM) :
    Bool :=
  ((myflags.ALLOC && a_flags.ALLOC) || (myflags.UNALLOC && a_flags.UNALLOC)) &&
    ((myflags.META && a_flags.META) || (myflags.CONT && a_flags.CONT))

/-- The visits the specification asks of a walk (section 4.3, step 2): the loaded cells
whose classification matches the active filter, in the order in which they are loaded,
each with its address and classification. -/
def spec_visited (a_flags : TSK_FS_BLOCK_WALK_FLAG_ENUM) (iters : List REG_WALK_ITER) :
    List (Nat × TSK_FS_BLOCK_FLAG_ENUM) :=
  iters.filterMap (fun it =>
    match it.load.ret with
    | TSK_OK cell =>
      if spec_matches a_flags (reg_cell_flags cell) then some (it.addr, reg_cell_flags cell)
      else none
    | TSK_ERR _ => none)

/-- A hive whose cell area reaches the end of the 32-bit address space: the image has
`2 ^ 32` bytes, an unallocated 0x20-byte cell at 0xFFFFF020 (the first cell of the bin at
0xFFFFF000) and an unallocated 0xFE0-byte cell at 0x20; every other byte is zero. -/
def edge_fs : TSK_FS_INFO :=
  ⟨0x20, 0xFFFFFFFF, ⟨2 ^ 32, fun a =>
    if a = 0xFFFFF020 then 0x20
    else if a = 0x20 then 0xe0
    else if a = 0x21 then 0x0f
    else 0⟩⟩

/-- An 0x2000-byte image: a header block that starts with the bytes of "regf", and one
bin at 0x1000 whose first cell, at 0x1020, starts with the given bytes; every other byte
is zero. -/
def cell_img (bytes : List uint8_t) : TSK_IMG_INFO :=
  ⟨0x2000, fun a =>
    if a < 4 then [0x72, 0x65, 0x67, 0x66].getD a 0
    else if 0x1020 ≤ a then bytes.getD (a - 0x1020) 0
    else 0⟩

/-- The hive over `cell_img`: cells from 0x1020, last block 0x2000. -/
def cell_fs (bytes : List uint8_t) : TSK_FS_INFO := ⟨0x1020, 0x2000, cell_img bytes⟩

/-- The four bytes that store a 32-bit value in little-endian order (the encoding that
`tsk_getu32` reads back). -/
def le32 (x : Nat) : List uint8_t :=
  [Fin.ofNat x, Fin.ofNat (x / 2 ^ 8), Fin.ofNat (x / 2 ^ 16), Fin.ofNat (x / 2 ^ 24)]

/-- The two tag bytes written with two ASCII characters. -/
def tag_bytes (c1 c2 : Char) : List uint8_t := [Fin.ofNat c1.toNat, Fin.ofNat c2.toNat]

/-- The part of the declaration of `REGF` (the hive header structure of `tsk_regfs.h`,
which is not part of the source) that regfs.c relies on: the size of the structure and
the offsets of its byte-array fields `magic` and `last_hbin_offset`. -/
structure REGF_DECL where
  sizeof : Nat
  magic : Nat
  last_hbin_offset : Nat

/-- What a call of `reg_load_regf` does: the value returned (with the header bytes read
into `regf` on success) and the reads of the image it issued. -/
structure REG_LOAD_REGF where
  ret : TSK_RETVAL_ENUM (List uint8_t)
  reads : List (Nat × Nat)
  deriving DecidableEq, Repr

/-- The header loader `reg_load_regf(fs_info, regf)`: it reads `sizeof(REGF)` bytes at
offset 0 and compares the `magic` field with `REG_REGF_MAGIC`. -/
def reg_load_regf (R : REGF_DECL) (REG_REGF_MAGIC : Nat) (fs_info : TSK_FS_INFO) :
    REG_LOAD_REGF :=
  match tsk_fs_read fs_info 0 R.sizeof with
  | none => ⟨TSK_ERR TSK_ERR_FS_READ, [(0, R.sizeof)]⟩
  | some regf =>
    if tsk_getu32 (regf.drop R.magic) ≠ REG_REGF_MAGIC then
      ⟨TSK_ERR TSK_ERR_FS_INODE_COR, [(0, R.sizeof)]⟩
    else ⟨TSK_OK regf, [(0, R.sizeof)]⟩

/-- The open routine `regfs_open(img_info, offset, ftype, test)`; `none` is the NULL
result.  The image is the hive region that starts at `offset`; `ftype_isreg` is the value
of `TSK_FS_TYPE_ISREG(ftype)`, and `tsk_fs_malloc` is taken to succeed.  Of the fields
set on success, `first_block` and `last_block` are kept: `FIRST_HBIN_OFFSET + 0x20`, and
the 32-bit unsigned sum of the header field `last_hbin_offset` and `HBIN_SIZE`. -/
def regfs_open (HBIN_SIZE FIRST_HBIN_OFFSET REG_REGF_MAGIC : Nat) (R : REGF_DECL)
    (img_info : TSK_IMG_INFO) (ftype_isreg : Bool) : Option TSK_FS_INFO :=
  if ftype_isreg = false then none
  else
    match (reg_load_regf R REG_REGF_MAGIC ⟨0, 0, img_info⟩).ret with
    | TSK_ERR _ => none
    | TSK_OK regf =>
      some ⟨FIRST_HBIN_OFFSET + 0x20,
        u32 (tsk_getu32 (regf.drop R.last_hbin_offset) + HBIN_SIZE), img_info⟩

/-- A declaration of `REGF` for the concrete runs: 512 bytes, `magic` at offset 0 and
`last_hbin_offset` at offset 0x28. -/
def regf_decl : REGF_DECL := ⟨0x200, 0, 0x28⟩

/-- An 0x2000-byte image whose header starts with the bytes of "regf" and holds the
given 32-bit value in the field at offset 0x28; every other byte is zero. -/
def hdr_img (last_hbin_offset : Nat) : TSK_IMG_INFO :=
  ⟨0x2000, fun a =>
    if a < 4 then [0x72, 0x65, 0x67, 0x66].getD a 0
    else if 0x28 ≤ a ∧ a < 0x2C then (le32 last_hbin_offset).getD (a - 0x28) 0
    else 0⟩

/-- Status values of the 16-bit to 8-bit converter (`TSKConversionResult`). -/
inductive TSKConversionResult where
  | TSKconversionOK
  | TSKsourceExhausted
  | TSKtargetExhausted
  | TSKsourceIllegal
  deriving DecidableEq, Repr

open TSKConversionResult

/-- What a call of the converter `tsk_UTF16toUTF8` leaves behind: its status and the
bytes it stored from the start of the target; the target pointer (`name8` in
`regfs_utf16to8`) is advanced past them. -/
structure TSK_UTF16toUTF8_RUN where
  retVal : TSKConversionResult
  written : List uint8_t
  deriving DecidableEq, Repr

/-- A converter: from the source bytes and the size of the target to its run.  The
converter belongs to the base library and is not part of regfs.c; the functions that
call it take it as a parameter. -/
abbrev TSK_UTF16toUTF8_FN := List uint8_t → Nat → TSK_UTF16toUTF8_RUN

/-- The 8-bit encoding of one code point. -/
def utf8_encode (ch : Nat) : List uint8_t :=
  if ch < 0x80 then [Fin.ofNat ch]
  else if ch < 0x800 then [Fin.ofNat (0xC0 + ch / 0x40), Fin.ofNat (0x80 + ch % 0x40)]
  else if ch < 0x10000 then
    [Fin.ofNat (0xE0 + ch / 0x1000), Fin.ofNat (0x80 + ch / 0x40 % 0x40),
      Fin.ofNat (0x80 + ch % 0x40)]
  else
    [Fin.ofNat (0xF0 + ch / 0x40000), Fin.ofNat (0x80 + ch / 0x1000 % 0x40),
      Fin.ofNat (0x80 + ch / 0x40 % 0x40), Fin.ofNat (0x80 + ch % 0x40)]

/-- The little-endian 16-bit code units of a byte buffer. -/
def utf16_units : List uint8_t → List Nat
  | lo :: hi :: rest => (lo.val + hi.val * 2 ^ 8) :: utf16_units rest
  | _ => []

/-- The conversion loop over code units: `written` are the bytes stored so far in a
target of `target_len` bytes. -/
def utf16_convert (target_len : Nat) : List Nat → List uint8_t → TSK_UTF16toUTF8_RUN
  | [], written => ⟨TSKconversionOK, written⟩
  | [u], written =>
    if 0xD800 ≤ u ∧ u ≤ 0xDBFF then ⟨TSKsourceExhausted, written⟩
    else
      let ch := if 0xDC00 ≤ u ∧ u ≤ 0xDFFF then '^'.toNat else u
      if written.length + (utf8_encode ch).length > target_len then
        ⟨TSKtargetExhausted, written⟩
      else ⟨TSKconversionOK, written ++ utf8_encode ch⟩
  | u :: u2 :: us, written =>
    if 0xD800 ≤ u ∧ u ≤ 0xDBFF then
      let ch :=
        if 0xDC00 ≤ u2 ∧ u2 ≤ 0xDFFF then (u - 0xD800) * 0x400 + (u2 - 0xDC00) + 0x10000
        else '^'.toNat
      if written.length + (utf8_encode ch).length > target_len then
        ⟨TSKtargetExhausted, written⟩
      else utf16_convert target_len us (written ++ utf8_encode ch)
    else
      let ch := if 0xDC00 ≤ u ∧ u ≤ 0xDFFF then '^'.toNat else u
      if written.length + (utf8_encode ch).length > target_len then
        ⟨TSKtargetExhausted, written⟩
      else utf16_convert target_len (u2 :: us) (written ++ utf8_encode ch)

/-- Modelled from the spec: the lenient transformation from 16-bit code units to 8-bit
text (`tsk_UTF16toUTF8` of the base library with `TSKlenientConversion`, which is not
part of regfs.c).  Malformed sequences (a surrogate without its partner) are substituted
by `^` rather than failing; the transformation does not consume cleanly when the source
ends inside a surrogate pair or when the next character does not fit the target, and
then it stops with the bytes stored so far.  It is the converter of the concrete runs;
the theorems hold for every converter. -/
def tsk_UTF16toUTF8 : TSK_UTF16toUTF8_FN :=
  fun source target_len => utf16_convert target_len (utf16_units source) []

/-- The string codec `regfs_utf16to8(endian, error_class, utf16, utf16_length, utf8,
utf8_length)`: `utf8` is the content of the target array on entry, and the value returned
carries its content on exit.  `name8` is at offset `written.length` after the converter
has run; a store behind the last byte of the array leaves the array as it is. -/
def regfs_utf16to8 (conv : TSK_UTF16toUTF8_FN) (utf16 : List uint8_t) (utf16_length : Nat)
    (utf8 : List uint8_t) (utf8_length : Nat) : TSK_RETVAL_ENUM (List uint8_t) :=
  let run := conv (utf16.take utf16_length) utf8_length
  let name8 := run.written.length
  let target := run.written ++ utf8.drop run.written.length
  if run.retVal ≠ TSKconversionOK then TSK_OK (target.set name8 0)
  else if name8 ≥ utf8_length then TSK_OK (target.set (utf8_length - 1) 0)
  else TSK_OK (target.set name8 0)

/-- The string that `%s` prints from a character array: its bytes up to the first NUL
(or to the end of the array when it holds none). -/
def c_string (array : List uint8_t) : List uint8_t := array.takeWhile (fun b => b ≠ 0)

/-- The library call `strncpy(dst, src, n)` on the array `dst`: the first `n` bytes of
`dst` become the bytes of `src` up to its first NUL, padded with NUL. -/
def strncpy (dst src : List uint8_t) (n : Nat) : List uint8_t :=
  let body := (src.take n).takeWhile (fun b => b ≠ 0)
  body ++ List.replicate (n - body.length) 0 ++ dst.drop n

/-- The lines a report prints to `hFile`, with the values they show. -/
inductive ISTAT_LINE where
  | cell_information
  | cell_addr (inum : Nat)
  | allocated (yes : Bool)
  | cell_size (length : Nat)
  | record_information
  | record_type (type : TSK_REGFS_RECORD_TYPE_ENUM)
  | type_identifier (b4 b5 : uint8_t)
  | class_name_none
  | class_name (asc : List uint8_t)
  | key_name (s : List uint8_t)
  | root_record (yes : Bool)
  | adjusted_entry_times
  | original_entry_times
  | entry_times
  | modified
  | parent_record (inum : Nat)
  deriving DecidableEq, Repr

open ISTAT_LINE

/-- What a call of a record decoder (`reg_istat_nk`, `reg_istat_unknown`, ...) does:
the value returned, the reads of the image it issued and the lines it printed. -/
structure REG_ISTAT where
  ret : TSK_RETVAL_ENUM Unit
  reads : List (Nat × Nat)
  out : List ISTAT_LINE
  deriving DecidableEq, Repr

/-- The part of the declaration of `REGFS_CELL_NK` (`tsk_regfs.h`, not part of the
source) that `reg_istat_nk` relies on: the offsets of the fields it consults, counted
from the start of the structure (`nk = buf + 4`). -/
structure REGFS_CELL_NK_DECL where
  classname_offset : Nat
  classname_length : Nat
  name_length : Nat
  name : Nat
  is_root : Nat
  parent_nk_offset : Nat

/-- The content on entry of the automatic arrays of a decoder, which the source does not
initialise: `buf[HBIN_SIZE]` (given at every offset from its start), `s[512]` and
`asc[512]`. -/
structure REG_ISTAT_AUTO where
  buf : Nat → uint8_t
  s : List uint8_t
  asc : List uint8_t

/-- The bytes seen through `nk = buf + 4` after `tsk_fs_read` has stored the bytes of
the cell at the start of `buf`: offset `i` of `nk` is a byte of the cell when `4 + i` is
below the number of bytes read, and a byte left in `buf` otherwise. -/
def reg_nk_view (auto_buf : Nat → uint8_t) (bytes : List uint8_t) : Nat → uint8_t :=
  fun i => if 4 + i < bytes.length then bytes.getD (4 + i) 0 else auto_buf (4 + i)

/-- The `n` bytes of the field at offset `off` of `nk`. -/
def reg_nk_field (nk : Nat → uint8_t) (off n : Nat) : List uint8_t :=
  (List.range n).map (fun i => nk (off + i))

/-- Little-endian signed 16-bit value (two's complement) of the first two bytes. -/
def tsk_gets16 (buf : List uint8_t) : Int :=
  if tsk_getu16 buf < 2 ^ 15 then (tsk_getu16 buf : Int) else (tsk_getu16 buf : Int) - 2 ^ 16

/-- The value of a signed expression converted to `uint32_t`. -/
def to_u32 (x : Int) : Nat := Int.toNat (x % 2 ^ 32)

/-- The value `tsk_gets32(fs->endian, nk->classname_offset)` as the source uses it: compared
with the unsigned constant 0xFFFFFFFF and stored in `uint32_t classname_offset`. -/
def reg_nk_classname_offset (D : REGFS_CELL_NK_DECL) (nk : Nat → uint8_t) : Nat :=
  to_u32 (tsk_gets32 (reg_nk_field nk D.classname_offset 4))

/-- The value `tsk_gets16(fs->endian, nk->classname_length)` stored in
`uint32_t classname_length`. -/
def reg_nk_classname_length (D : REGFS_CELL_NK_DECL) (nk : Nat → uint8_t) : Nat :=
  to_u32 (tsk_gets16 (reg_nk_field nk D.classname_length 2))

/-- The value `tsk_getu16(fs->endian, nk->name_length)` stored in `uint16_t name_length`. -/
def reg_nk_name_length (D : REGFS_CELL_NK_DECL) (nk : Nat → uint8_t) : Nat :=
  tsk_getu16 (reg_nk_field nk D.name_length 2)

/-- The address of the secondary read of the class name,
`FIRST_HBIN_OFFSET + classname_offset + 4`, a 32-bit unsigned sum. -/
def reg_nk_classname_addr (FIRST_HBIN_OFFSET : Nat) (D : REGFS_CELL_NK_DECL)
    (nk : Nat → uint8_t) : Nat :=
  u32 (FIRST_HBIN_OFFSET + reg_nk_classname_offset D nk + 4)

/-- The statements of `reg_istat_nk` from `name_length = ...` to the end: the check of
the name length, the key name copied into `s`, the root flag, the entry times and the
parent record.  `s` is the content of the array `s` at that point. -/
def reg_istat_nk_name (FIRST_HBIN_OFFSET : Nat) (D : REGFS_CELL_NK_DECL) (nk : Nat → uint8_t)
    (s : List uint8_t) (sec_skew : Int) (reads : List (Nat × Nat)) (out : List ISTAT_LINE) :
    REG_ISTAT :=
  let name_length := reg_nk_name_length D nk
  if name_length > 512 then ⟨TSK_ERR TSK_ERR_FS_INODE_COR, reads, out⟩
  else
    let s1 := strncpy s (reg_nk_field nk D.name name_length) name_length
    let times := if sec_skew ≠ 0 then [adjusted_entry_times, modified, original_entry_times]
      else [entry_times]
    ⟨TSK_OK (), reads,
      out ++ [key_name (c_string s1),
          root_record (decide (tsk_getu16 (reg_nk_field nk D.is_root 2) = 0x2C))] ++ times
        ++ [modified,
          parent_record
            (u32 (FIRST_HBIN_OFFSET + tsk_getu32 (reg_nk_field nk D.parent_nk_offset 4)))]⟩

/-- The key decoder `reg_istat_nk(fs, hFile, cell, numblock, sec_skew)`. -/
def reg_istat_nk (HBIN_SIZE FIRST_HBIN_OFFSET : Nat) (D : REGFS_CELL_NK_DECL)
    (conv : TSK_UTF16toUTF8_FN) (auto : REG_ISTAT_AUTO) (fs : TSK_FS_INFO) (cell : REGFS_CELL)
    (sec_skew : Int) : REG_ISTAT :=
  if cell.length > HBIN_SIZE then ⟨TSK_ERR TSK_ERR_FS_INODE_COR, [], []⟩
  else
    match tsk_fs_read fs cell.inum cell.length with
    | none => ⟨TSK_ERR TSK_ERR_FS_READ, [(cell.inum, cell.length)], []⟩
    | some bytes =>
      let nk := reg_nk_view auto.buf bytes
      let out := [record_information, record_type TSK_REGFS_RECORD_TYPE_NK]
      if reg_nk_classname_offset D nk = 0xFFFFFFFF then
        reg_istat_nk_name FIRST_HBIN_OFFSET D nk auto.s sec_skew [(cell.inum, cell.length)]
          (out ++ [class_name_none])
      else
        let classname_length := reg_nk_classname_length D nk
        if classname_length > 512 then
          ⟨TSK_ERR TSK_ERR_FS_INODE_COR, [(cell.inum, cell.length)], out⟩
        else
          let off := reg_nk_classname_addr FIRST_HBIN_OFFSET D nk
          match tsk_fs_read fs off classname_length with
          | none =>
            ⟨TSK_ERR TSK_ERR_FS_READ, [(cell.inum, cell.length), (off, classname_length)], out⟩
          | some classname =>
            let s := classname ++ auto.s.drop classname_length
            match regfs_utf16to8 conv s 512 auto.asc 512 with
            | TSK_ERR _ =>
              ⟨TSK_ERR TSK_ERR_FS_UNICODE,
                [(cell.inum, cell.length), (off, classname_length)], out⟩
            | TSK_OK asc =>
              reg_istat_nk_name FIRST_HBIN_OFFSET D nk s sec_skew
                [(cell.inum, cell.length), (off, classname_length)]
                (out ++ [class_name (c_string asc)])

/-- The decoder `reg_istat_unknown(fs, hFile, cell, numblock, sec_skew)`. -/
def reg_istat_unknown (HBIN_SIZE : Nat) (auto : REG_ISTAT_AUTO) (fs : TSK_FS_INFO)
    (cell : REGFS_CELL) : REG_ISTAT :=
  if cell.length > HBIN_SIZE then ⟨TSK_ERR TSK_ERR_FS_INODE_COR, [], []⟩
  else
    match tsk_fs_read fs cell.inum cell.length with
    | none => ⟨TSK_ERR TSK_ERR_FS_READ, [(cell.inum, cell.length)], []⟩
    | some bytes =>
      ⟨TSK_OK (), [(cell.inum, cell.length)],
        [record_information, record_type TSK_REGFS_RECORD_TYPE_UNKNOWN,
          type_identifier (reg_nk_view auto.buf bytes 0) (reg_nk_view auto.buf bytes 1)]⟩

/-- The decoders `reg_istat_vk`, `reg_istat_lf`, `reg_istat_lh`, `reg_istat_li`,
`reg_istat_ri`, `reg_istat_sk` and `reg_istat_db`: each prints the record heading and its
record type, and returns `TSK_OK`. -/
def reg_istat_stub (type : TSK_REGFS_RECORD_TYPE_ENUM) : REG_ISTAT :=
  ⟨TSK_OK (), [], [record_information, record_type type]⟩

/-- What a call of `reg_istat` does: the value returned (1 on error, 0 on success), the
call of `reg_load_cell`, the call of the decoder selected by the cell type (when the
load succeeded) and the lines printed. -/
structure REG_ISTAT_RUN where
  ret : Nat
  load : REG_LOAD
  decode : Option REG_ISTAT
  out : List ISTAT_LINE
  deriving DecidableEq, Repr

/-- The per-record report `reg_istat(fs, hFile, inum, numblock, sec_skew)`. -/
def reg_istat (HBIN_SIZE FIRST_HBIN_OFFSET : Nat) (D : REGFS_CELL_NK_DECL)
    (conv : TSK_UTF16toUTF8_FN) (auto : REG_ISTAT_AUTO) (fs : TSK_FS_INFO) (inum : Nat)
    (sec_skew : Int) : REG_ISTAT_RUN :=
  let load := reg_load_cell HBIN_SIZE fs inum
  match load.ret with
  | TSK_ERR _ => ⟨1, load, none, [cell_information]⟩
  | TSK_OK cell =>
    let decode :=
      match cell.type with
      | TSK_REGFS_RECORD_TYPE_VK => reg_istat_stub TSK_REGFS_RECORD_TYPE_VK
      | TSK_REGFS_RECORD_TYPE_NK =>
        reg_istat_nk HBIN_SIZE FIRST_HBIN_OFFSET D conv auto fs cell sec_skew
      | TSK_REGFS_RECORD_TYPE_LF => reg_istat_stub TSK_REGFS_RECORD_TYPE_LF
      | TSK_REGFS_RECORD_TYPE_LH => reg_istat_stub TSK_REGFS_RECORD_TYPE_LH
      | TSK_REGFS_RECORD_TYPE_LI => reg_istat_stub TSK_REGFS_RECORD_TYPE_LI
      | TSK_REGFS_RECORD_TYPE_RI => reg_istat_stub TSK_REGFS_RECORD_TYPE_RI
      | TSK_REGFS_RECORD_TYPE_SK => reg_istat_stub TSK_REGFS_RECORD_TYPE_SK
      | TSK_REGFS_RECORD_TYPE_DB => reg_istat_stub TSK_REGFS_RECORD_TYPE_DB
      | TSK_REGFS_RECORD_TYPE_UNKNOWN => reg_istat_unknown HBIN_SIZE auto fs cell
    ⟨0, load, some decode,
      [cell_information, cell_addr inum, allocated cell.is_allocated,
        cell_size cell.length] ++ decode.out⟩

/-- The offsets of the key node of the registry format, for the concrete runs:
`classname_offset` at 0x30, `classname_length` at 0x4A, `name_length` at 0x48, `name` at
0x4C, `is_root` (the flags word) at 0x02 and `parent_nk_offset` at 0x10. -/
def nk_decl : REGFS_CELL_NK_DECL := ⟨0x30, 0x4A, 0x48, 0x4C, 0x02, 0x10⟩

/-- Automatic arrays that hold the byte `b` everywhere on entry. -/
def auto_fill (b : uint8_t) : REG_ISTAT_AUTO :=
  ⟨fun _ => b, List.replicate 512 b, List.replicate 512 b⟩

/-- The two bytes that store a 16-bit value in little-endian order. -/
def le16 (x : Nat) : List uint8_t := [Fin.ofNat x, Fin.ofNat (x / 2 ^ 8)]

/-- The bytes of a key cell: the length field, the tag "nk", the root flags 0x2C, the
parent offset 0x20, the class-name offset, the name length, the class-name length and
the name, at the offsets of `nk_decl`; the other header bytes are zero. -/
def nk_cell (length_field classname_offset classname_length name_length : Nat)
    (name : List uint8_t) : List uint8_t :=
  le32 length_field ++ tag_bytes 'n' 'k' ++ [0x2C, 0] ++ List.replicate 12 0 ++ le32 0x20
    ++ List.replicate 0x1C 0 ++ le32 classname_offset ++ List.replicate 0x14 0
    ++ le16 name_length ++ le16 classname_length ++ name

/-- An 0x2000-byte hive image: a header with the bytes of "regf" and the last-bin offset
0x1000 at 0x28, the bytes `cell` in `[0x1020, 0x1080)` and the bytes `data` from 0x1084
on (the payload of a cell at 0x1080, bin-relative offset 0x80); other bytes are zero. -/
def nk_img (cell data : List uint8_t) : TSK_IMG_INFO :=
  ⟨0x2000, fun a =>
    if a < 4 then [0x72, 0x65, 0x67, 0x66].getD a 0
    else if 0x28 ≤ a ∧ a < 0x2C then (le32 0x1000).getD (a - 0x28) 0
    else if 0x1020 ≤ a ∧ a < 0x1080 then cell.getD (a - 0x1020) 0
    else if 0x1084 ≤ a then data.getD (a - 0x1084) 0
    else 0⟩

/-- The hive over `nk_img`, with the bounds that `regfs_open` derives from its header
for `FIRST_HBIN_OFFSET` = `HBIN_SIZE` = 0x1000. -/
def nk_fs (cell data : List uint8_t) : TSK_FS_INFO := ⟨0x1020, 0x2000, nk_img cell data⟩

/-- Class-name bytes on which the conversion stops early: 255 code units "A" and a high
surrogate 0xD800 as the last of the 256 units. -/
def classname_lone_surrogate : List uint8_t :=
  (List.replicate 255 [0x41, 0]).flatten ++ [0x00, 0xD8]

/-- What a call of a journal operation does: the value returned, the content of the
error slot afterwards, the reads of the image it issued and the number of times it
invoked its callback. -/
structure REG_JOURNAL where
  ret : Nat
  errno : Option TSK_ERR_ENUM
  reads : List (Nat × Nat)
  calls : Nat
  deriving DecidableEq, Repr

/-- Modelled from the spec: `tsk_error_reset` of the base library (not part of regfs.c)
clears the process-wide error slot, whose content before the call is `errno`. -/
def tsk_error_reset (errno : Option TSK_ERR_ENUM) : Option TSK_ERR_ENUM :=
  match errno with
  | _ => none

/-- Modelled from the spec: `tsk_error_set_errno` of the base library (not part of
regfs.c) stores an error code in the error slot. -/
def tsk_error_set_errno (errno : Option TSK_ERR_ENUM) (e : TSK_ERR_ENUM) :
    Option TSK_ERR_ENUM :=
  match errno with
  | _ => some e

/-- The helper `reg_journal_unsupported()`: it resets the error slot and stores
`TSK_ERR_FS_UNSUPFUNC` in it; the value is the content of the slot afterwards. -/
def reg_journal_unsupported (errno : Option TSK_ERR_ENUM) : Option TSK_ERR_ENUM :=
  tsk_error_set_errno (tsk_error_reset errno) TSK_ERR_FS_UNSUPFUNC

/-- The journal operation `reg_jblk_walk(fs, start, end, flags, a_action, ptr)`: it calls
`reg_journal_unsupported` and returns 1. -/
def reg_jblk_walk (fs : TSK_FS_INFO) (start end_blk : Nat) (flags : Int)
    (errno : Option TSK_ERR_ENUM) : REG_JOURNAL :=
  match fs, start, end_blk, flags with
  | _, _, _, _ => ⟨1, reg_journal_unsupported errno, [], 0⟩

/-- The journal operation `reg_jentry_walk(fs, flags, a_action, ptr)`: it calls
`reg_journal_unsupported` and returns 1. -/
def reg_jentry_walk (fs : TSK_FS_INFO) (flags : Int) (errno : Option TSK_ERR_ENUM) :
    REG_JOURNAL :=
  match fs, flags with
  | _, _ => ⟨1, reg_journal_unsupported errno, [], 0⟩

/-- The journal operation `reg_jopen(fs, inum)`: it calls `reg_journal_unsupported` and
returns 1. -/
def reg_jopen (fs : TSK_FS_INFO) (inum : Nat) (errno : Option TSK_ERR_ENUM) : REG_JOURNAL :=
  match fs, inum with
  | _, _ => ⟨1, reg_journal_unsupported errno, [], 0⟩

/-- The iterations that the loop of `reg_block_walk` performs within `fuel` loop tests,
whether it has returned by then or not: the body is that of `reg_block_walk_loop`. -/
def reg_block_walk_iters (HBIN_SIZE : Nat) (fs : TSK_FS_INFO) (a_end_blk : Nat) :
    Nat → Nat → Nat → List REG_WALK_ITER
  | 0, _, _ => []
  | fuel + 1, addr, current_hbin_start =>
    if addr < a_end_blk then
      let load := reg_load_cell HBIN_SIZE fs addr
      let iter : REG_WALK_ITER := ⟨addr, current_hbin_start, load⟩
      match load.ret with
      | TSK_ERR _ => [iter]
      | TSK_OK cell =>
        if reg_walk_overrun HBIN_SIZE addr cell.length current_hbin_start then [iter]
        else
          iter :: reg_block_walk_iters HBIN_SIZE fs a_end_blk fuel
            (reg_walk_next_addr HBIN_SIZE addr cell.length current_hbin_start)
            (reg_walk_next_hbin HBIN_SIZE addr cell.length current_hbin_start)
    else []

/-- An image of `2 ^ 32` bytes with a hive that reaches the end of the 32-bit address
space: the header starts with the bytes of "regf" and holds 0xFFFFEFFF in the field
`last_hbin_offset` at offset 0x28; at 0xFFFFF020, behind the header of the bin at
0xFFFFF000, lies an unallocated 0x20-byte cell; every other byte is zero. -/
def edge_hive_img : TSK_IMG_INFO :=
  ⟨2 ^ 32, fun a =>
    if a < 4 then [0x72, 0x65, 0x67, 0x66].getD a 0
    else if 0x28 ≤ a ∧ a < 0x2C then (le32 0xFFFFEFFF).getD (a - 0x28) 0
    else if a = 0xFFFFF020 then 0x20
    else 0⟩

/-! ## Arithmetic of the length field -/

theorem tsk_getu32_lt (buf : List uint8_t) : tsk_getu32 buf < 2 ^ 32 := by
  unfold tsk_getu32
  have h0 := (buf.getD 0 0).isLt
  have h1 := (buf.getD 1 0).isLt
  have h2 := (buf.getD 2 0).isLt
  have h3 := (buf.getD 3 0).isLt
  omega

theorem tsk_getu32_le32 (x : Nat) : tsk_getu32 (le32 x) = x % 2 ^ 32 := by
  simp only [tsk_getu32, le32, List.getD_cons_zero, List.getD_cons_succ, Fin.ofNat]
  omega

theorem bit31_iff_testBit (x : Nat) : x &&& (1 <<< 31) ≠ 0 ↔ x.testBit 31 = true := by
  rw [Nat.one_shiftLeft, Nat.and_two_pow]
  cases h : x.testBit 31 <;> simp

theorem testBit31_iff_le (x : Nat) (hx : x < 2 ^ 32) : x.testBit 31 = true ↔ 2 ^ 31 ≤ x := by
  rw [Nat.testBit_to_div_mod]
  simp only [decide_eq_true_eq]
  omega

theorem reg_cell_length_eq (buf : List uint8_t) :
    reg_cell_length buf =
      if 2 ^ 31 ≤ tsk_getu32 buf then (true, 2 ^ 32 - tsk_getu32 buf)
      else (false, tsk_getu32 buf) := by
  have hlt := tsk_getu32_lt buf
  have hu : u32 (tsk_getu32 buf) = tsk_getu32 buf := Nat.mod_eq_of_lt hlt
  unfold reg_cell_length
  simp only [hu, bit31_iff_testBit, testBit31_iff_le _ hlt]
  by_cases h : 2 ^ 31 ≤ tsk_getu32 buf
  · simp only [h, if_true]
    have hs : tsk_gets32 buf = (tsk_getu32 buf : Int) - 2 ^ 32 := by
      unfold tsk_gets32
      rw [if_neg (by omega)]
    rw [hs]
    congr 1
    omega
  · simp only [h, if_false]

/-! ## The cell loader -/

theorem tsk_fs_read_some_iff (fs : TSK_FS_INFO) (off len : Nat) (buf : List uint8_t) :
    tsk_fs_read fs off len = some buf ↔
      off + len ≤ fs.img_info.size ∧ buf = image_bytes fs off len := by
  unfold tsk_fs_read
  split <;> simp_all [eq_comm]

/-- The value of `reg_load_cell` at an address that passes the range check, when both
reads are served and the derived length is below the bin size. -/
theorem reg_load_cell_ok (HBIN_SIZE : Nat) (fs : TSK_FS_INFO) (inum : Nat)
    (h1 : fs.first_block ≤ inum) (h2 : inum ≤ fs.last_block)
    (h3 : inum + 6 ≤ fs.img_info.size)
    (h4 : (reg_cell_length (image_bytes fs inum 4)).2 < HBIN_SIZE) :
    reg_load_cell HBIN_SIZE fs inum =
      ⟨TSK_OK ⟨inum, (reg_cell_length (image_bytes fs inum 4)).1,
          (reg_cell_length (image_bytes fs inum 4)).2,
          reg_record_type (tsk_getu16 (image_bytes fs (inum + 4) 2))⟩,
        [(inum, 4), (inum + 4, 2)]⟩ := by
  unfold reg_load_cell tsk_fs_read
  rw [if_neg (by omega), if_pos (by omega)]
  simp only [ge_iff_le]
  rw [if_neg (by omega), if_pos (by omega)]

/-- Every successful load went through both reads and the length check. -/
theorem reg_load_cell_ok_inv (HBIN_SIZE : Nat) (fs : TSK_FS_INFO) (inum : Nat)
    (cell : REGFS_CELL) (h : (reg_load_cell HBIN_SIZE fs inum).ret = TSK_OK cell) :
    fs.first_block ≤ inum ∧ inum ≤ fs.last_block ∧ inum + 6 ≤ fs.img_info.size ∧
      (reg_cell_length (image_bytes fs inum 4)).2 < HBIN_SIZE ∧
      cell = ⟨inum, (reg_cell_length (image_bytes fs inum 4)).1,
          (reg_cell_length (image_bytes fs inum 4)).2,
          reg_record_type (tsk_getu16 (image_bytes fs (inum + 4) 2))⟩ := by
  unfold reg_load_cell tsk_fs_read at h
  by_cases hr : inum < fs.first_block ∨ inum > fs.last_block
  · rw [if_pos hr] at h
    cases h
  · rw [if_neg hr] at h
    by_cases h4 : inum + 4 ≤ fs.img_info.size
    · rw [if_pos h4] at h
      simp only [ge_iff_le] at h
      by_cases hl : HBIN_SIZE ≤ (reg_cell_length (image_bytes fs inum 4)).2
      · rw [if_pos hl] at h
        cases h
      · rw [if_neg hl] at h
        by_cases h6 : inum + 4 + 2 ≤ fs.img_info.size
        · rw [if_pos h6] at h
          simp only [TSK_OK.injEq] at h
          refine ⟨by omega, by omega, by omega, by omega, h.symm⟩
        · rw [if_neg h6] at h
          cases h
    · rw [if_neg h4] at h
      cases h

/-- C1: `reg_load_cell` fails with the block-number (out of range) error exactly when
the address is below `first_block` or above `last_block`; in that case it issues no read
of the image, and for an address inside the bounds the range check is passed and the
loader goes on to read the length field at the address. -/
theorem reg_load_cell_out_of_range (HBIN_SIZE : Nat) (fs : TSK_FS_INFO) (inum : Nat) :
    ((reg_load_cell HBIN_SIZE fs inum).ret = TSK_ERR TSK_ERR_FS_BLK_NUM ↔
        (inum < fs.first_block ∨ inum > fs.last_block)) ∧
      ((inum < fs.first_block ∨ inum > fs.last_block) →
        (reg_load_cell HBIN_SIZE fs inum).reads = []) ∧
      ((fs.first_block ≤ inum ∧ inum ≤ fs.last_block) →
        (reg_load_cell HBIN_SIZE fs inum).ret ≠ TSK_ERR TSK_ERR_FS_BLK_NUM ∧
        (reg_load_cell HBIN_SIZE fs inum).reads.head? = some (inum, 4)) := by
  have key : ¬ (inum < fs.first_block ∨ inum > fs.last_block) →
      (reg_load_cell HBIN_SIZE fs inum).ret ≠ TSK_ERR TSK_ERR_FS_BLK_NUM ∧
        (reg_load_cell HBIN_SIZE fs inum).reads.head? = some (inum, 4) := by
    intro hr
    unfold reg_load_cell
    rw [if_neg hr]
    cases tsk_fs_read fs inum 4 with
    | none => simp
    | some buf =>
      simp only [ge_iff_le]
      by_cases hl : HBIN_SIZE ≤ (reg_cell_length buf).2
      · rw [if_pos hl]
        simp
      · rw [if_neg hl]
        cases tsk_fs_read fs (inum + 4) 2 <;> simp
  refine ⟨⟨?_, ?_⟩, ?_, ?_⟩
  · intro h
    by_contra hr
    exact (key hr).1 h
  · intro hr
    unfold reg_load_cell
    rw [if_pos hr]
  · intro hr
    unfold reg_load_cell
    rw [if_pos hr]
  · intro hr
    exact key (by omega)

/-- C2: a successfully loaded cell is allocated iff bit 31 of the little-endian length
field at its address is set; and for every `L` with `1 ≤ L < HBIN_SIZE` (the bin size
being at most `2 ^ 31`), at an address in range whose six header bytes are readable, the
field holding the 32-bit two's complement of `-L` loads as an allocated cell of length
`L`, and the field holding `L` loads as an unallocated cell of length `L`. -/
theorem reg_load_cell_is_allocated (HBIN_SIZE : Nat) (fs : TSK_FS_INFO) (inum : Nat) :
    (∀ cell, (reg_load_cell HBIN_SIZE fs inum).ret = TSK_OK cell →
      (cell.is_allocated = true ↔ (tsk_getu32 (image_bytes fs inum 4)).testBit 31 = true)) ∧
    (∀ L, HBIN_SIZE ≤ 2 ^ 31 → 1 ≤ L → L < HBIN_SIZE →
      fs.first_block ≤ inum → inum ≤ fs.last_block → inum + 6 ≤ fs.img_info.size →
      (image_bytes fs inum 4 = le32 (2 ^ 32 - L) →
        (reg_load_cell HBIN_SIZE fs inum).ret =
          TSK_OK ⟨inum, true, L, reg_record_type (tsk_getu16 (image_bytes fs (inum + 4) 2))⟩) ∧
      (image_bytes fs inum 4 = le32 L →
        (reg_load_cell HBIN_SIZE fs inum).ret =
          TSK_OK ⟨inum, false, L,
            reg_record_type (tsk_getu16 (image_bytes fs (inum + 4) 2))⟩)) := by
  constructor
  · intro cell h
    obtain ⟨_, _, _, _, hc⟩ := reg_load_cell_ok_inv HBIN_SIZE fs inum cell h
    rw [hc, testBit31_iff_le _ (tsk_getu32_lt _), reg_cell_length_eq]
    by_cases hb : 2 ^ 31 ≤ tsk_getu32 (image_bytes fs inum 4)
    · rw [if_pos hb]
      exact ⟨fun _ => hb, fun _ => rfl⟩
    · rw [if_neg hb]
      exact ⟨fun h => absurd h (by simp), fun h => absurd h hb⟩
  · intro L hH hL1 hL2 h1 h2 h3
    constructor
    · intro hb
      have hv : tsk_getu32 (image_bytes fs inum 4) = 2 ^ 32 - L := by
        rw [hb, tsk_getu32_le32]
        omega
      have hc : reg_cell_length (image_bytes fs inum 4) = (true, L) := by
        rw [reg_cell_length_eq, hv, if_pos (by omega)]
        congr 1
        omega
      rw [reg_load_cell_ok HBIN_SIZE fs inum h1 h2 h3 (by rw [hc]; exact hL2), hc]
    · intro hb
      have hv : tsk_getu32 (image_bytes fs inum 4) = L := by
        rw [hb, tsk_getu32_le32]
        omega
      have hc : reg_cell_length (image_bytes fs inum 4) = (false, L) := by
        rw [reg_cell_length_eq, hv, if_neg (by omega)]
      rw [reg_load_cell_ok HBIN_SIZE fs inum h1 h2 h3 (by rw [hc]; exact hL2), hc]

/-- C3: at an address in range whose length field is readable, `reg_load_cell` fails
with the corrupt-cell error whenever the derived length is at least the bin size; so a
successfully loaded cell is shorter than the bin size.  The raw field 0x80000000 derives
the length `2 ^ 31` and is rejected for every bin size up to `2 ^ 31`, and a field
holding exactly the bin size is rejected. -/
theorem reg_load_cell_corrupt (HBIN_SIZE : Nat) (fs : TSK_FS_INFO) (inum : Nat) :
    (∀ buf, fs.first_block ≤ inum → inum ≤ fs.last_block →
      tsk_fs_read fs inum 4 = some buf → (reg_cell_length buf).2 ≥ HBIN_SIZE →
      (reg_load_cell HBIN_SIZE fs inum).ret = TSK_ERR TSK_ERR_FS_INODE_COR) ∧
    (∀ cell, (reg_load_cell HBIN_SIZE fs inum).ret = TSK_OK cell → cell.length < HBIN_SIZE) ∧
    (∀ buf, tsk_getu32 buf = 0x80000000 → reg_cell_length buf = (true, 2 ^ 31)) ∧
    (fs.first_block ≤ inum → inum ≤ fs.last_block → inum + 4 ≤ fs.img_info.size →
      HBIN_SIZE ≤ 2 ^ 31 → image_bytes fs inum 4 = le32 0x80000000 →
      (reg_load_cell HBIN_SIZE fs inum).ret = TSK_ERR TSK_ERR_FS_INODE_COR) ∧
    (fs.first_block ≤ inum → inum ≤ fs.last_block → inum + 4 ≤ fs.img_info.size →
      HBIN_SIZE < 2 ^ 31 → image_bytes fs inum 4 = le32 HBIN_SIZE →
      (reg_load_cell HBIN_SIZE fs inum).ret = TSK_ERR TSK_ERR_FS_INODE_COR) := by
  have main : ∀ buf, fs.first_block ≤ inum → inum ≤ fs.last_block →
      tsk_fs_read fs inum 4 = some buf → (reg_cell_length buf).2 ≥ HBIN_SIZE →
      (reg_load_cell HBIN_SIZE fs inum).ret = TSK_ERR TSK_ERR_FS_INODE_COR := by
    intro buf h1 h2 hr hl
    unfold reg_load_cell
    rw [if_neg (by omega), hr]
    simp only
    rw [if_pos hl]
  refine ⟨main, ?_, ?_, ?_, ?_⟩
  · intro cell h
    obtain ⟨_, _, _, hlen, hc⟩ := reg_load_cell_ok_inv HBIN_SIZE fs inum cell h
    rw [hc]
    exact hlen
  · intro buf hb
    rw [reg_cell_length_eq, hb]
    decide
  · intro h1 h2 h3 hH hb
    apply main (image_bytes fs inum 4) h1 h2
    · rw [tsk_fs_read_some_iff]
      exact ⟨h3, rfl⟩
    · rw [reg_cell_length_eq, hb, tsk_getu32_le32]
      have e : (0x80000000 : Nat) % 2 ^ 32 = 2 ^ 31 := by norm_num
      rw [e, if_pos (le_refl _)]
      show HBIN_SIZE ≤ 2 ^ 32 - 2 ^ 31
      omega
  · intro h1 h2 h3 hH hb
    apply main (image_bytes fs inum 4) h1 h2
    · rw [tsk_fs_read_some_iff]
      exact ⟨h3, rfl⟩
    · rw [reg_cell_length_eq, hb, tsk_getu32_le32]
      have : HBIN_SIZE % 2 ^ 32 = HBIN_SIZE := Nat.mod_eq_of_lt (by omega)
      rw [this, if_neg (by omega)]

/-- C4: a cell that passes the range check, both reads and the length check is returned
with success, and its record type is the image of the 16-bit tag at `inum + 4` under the
fixed table: the ASCII tags nk, vk, lf, lh, li, ri, sk and db give the eight known record
types, and every other tag value gives `TSK_REGFS_RECORD_TYPE_UNKNOWN`, still with
success. -/
theorem reg_load_cell_type (HBIN_SIZE : Nat) (fs : TSK_FS_INFO) (inum : Nat) :
    (fs.first_block ≤ inum → inum ≤ fs.last_block → inum + 6 ≤ fs.img_info.size →
      (reg_cell_length (image_bytes fs inum 4)).2 < HBIN_SIZE →
      ∃ cell, (reg_load_cell HBIN_SIZE fs inum).ret = TSK_OK cell ∧
        cell.type = reg_record_type (tsk_getu16 (image_bytes fs (inum + 4) 2))) ∧
    (reg_record_type (tsk_getu16 (tag_bytes 'n' 'k')) = TSK_REGFS_RECORD_TYPE_NK ∧
      reg_record_type (tsk_getu16 (tag_bytes 'v' 'k')) = TSK_REGFS_RECORD_TYPE_VK ∧
      reg_record_type (tsk_getu16 (tag_bytes 'l' 'f')) = TSK_REGFS_RECORD_TYPE_LF ∧
      reg_record_type (tsk_getu16 (tag_bytes 'l' 'h')) = TSK_REGFS_RECORD_TYPE_LH ∧
      reg_record_type (tsk_getu16 (tag_bytes 'l' 'i')) = TSK_REGFS_RECORD_TYPE_LI ∧
      reg_record_type (tsk_getu16 (tag_bytes 'r' 'i')) = TSK_REGFS_RECORD_TYPE_RI ∧
      reg_record_type (tsk_getu16 (tag_bytes 's' 'k')) = TSK_REGFS_RECORD_TYPE_SK ∧
      reg_record_type (tsk_getu16 (tag_bytes 'd' 'b')) = TSK_REGFS_RECORD_TYPE_DB) ∧
    (∀ t : Nat, t ≠ tsk_getu16 (tag_bytes 'n' 'k') → t ≠ tsk_getu16 (tag_bytes 'v' 'k') →
      t ≠ tsk_getu16 (tag_bytes 'l' 'f') → t ≠ tsk_getu16 (tag_bytes 'l' 'h') →
      t ≠ tsk_getu16 (tag_bytes 'l' 'i') → t ≠ tsk_getu16 (tag_bytes 'r' 'i') →
      t ≠ tsk_getu16 (tag_bytes 's' 'k') → t ≠ tsk_getu16 (tag_bytes 'd' 'b') →
      reg_record_type t = TSK_REGFS_RECORD_TYPE_UNKNOWN) := by
  refine ⟨?_, by decide, ?_⟩
  · intro h1 h2 h3 h4
    exact ⟨_, by rw [reg_load_cell_ok HBIN_SIZE fs inum h1 h2 h3 h4], rfl⟩
  · intro t hnk hvk hlf hlh hli hri hsk hdb
    have e1 : tsk_getu16 (tag_bytes 'n' 'k') = 0x6b6e := by decide
    have e2 : tsk_getu16 (tag_bytes 'v' 'k') = 0x6b76 := by decide
    have e3 : tsk_getu16 (tag_bytes 'l' 'f') = 0x666c := by decide
    have e4 : tsk_getu16 (tag_bytes 'l' 'h') = 0x686c := by decide
    have e5 : tsk_getu16 (tag_bytes 'l' 'i') = 0x696c := by decide
    have e6 : tsk_getu16 (tag_bytes 'r' 'i') = 0x6972 := by decide
    have e7 : tsk_getu16 (tag_bytes 's' 'k') = 0x6b73 := by decide
    have e8 : tsk_getu16 (tag_bytes 'd' 'b') = 0x6264 := by decide
    rw [e1] at hnk
    rw [e2] at hvk
    rw [e3] at hlf
    rw [e4] at hlh
    rw [e5] at hli
    rw [e6] at hri
    rw [e7] at hsk
    rw [e8] at hdb
    unfold reg_record_type
    simp only [hnk, hvk, hlf, hlh, hli, hri, hsk, hdb, if_false]

theorem tsk_fs_read_congr (fs1 fs2 : TSK_FS_INFO) (off n : Nat) (hn : 0 < n)
    (hb : ∀ i, i < n → image_byte fs1 (off + i) = image_byte fs2 (off + i)) :
    tsk_fs_read fs1 off n = tsk_fs_read fs2 off n := by
  have hpres : ∀ i, i < n → (off + i < fs1.img_info.size ↔ off + i < fs2.img_info.size) := by
    intro i hi
    have h := hb i hi
    unfold image_byte at h
    by_cases h1 : off + i < fs1.img_info.size <;> by_cases h2 : off + i < fs2.img_info.size
    · exact ⟨fun _ => h2, fun _ => h1⟩
    · rw [if_pos h1, if_neg h2] at h
      cases h
    · rw [if_neg h1, if_pos h2] at h
      cases h
    · exact ⟨fun h => absurd h h1, fun h => absurd h h2⟩
  have hdata : ∀ i, i < n → off + i < fs1.img_info.size →
      fs1.img_info.data (off + i) = fs2.img_info.data (off + i) := by
    intro i hi h1
    have h := hb i hi
    have h2 : off + i < fs2.img_info.size := (hpres i hi).mp h1
    unfold image_byte at h
    rw [if_pos h1, if_pos h2] at h
    exact Option.some.inj h
  have hlast := hpres (n - 1) (by omega)
  unfold tsk_fs_read
  by_cases h1 : off + n ≤ fs1.img_info.size
  · have h2 : off + n ≤ fs2.img_info.size := by omega
    rw [if_pos h1, if_pos h2]
    congr 1
    unfold image_bytes
    apply List.map_congr_left
    intro i hi
    rw [List.mem_range] at hi
    exact hdata i hi (by omega)
  · have h2 : ¬ off + n ≤ fs2.img_info.size := by omega
    rw [if_neg h1, if_neg h2]

/-- C5: the result of `reg_load_cell` is a function of the hive bounds and of the six
image bytes at `[inum, inum + 6)`: on two hives with the same bounds whose images agree
on those six offsets (same bytes, present in both or absent in both), the loader returns
the same value (success or the same error, same length, allocation state and type) and
issues the same reads; every read it issues lies inside `[inum, inum + 6)`. -/
theorem reg_load_cell_six_bytes (HBIN_SIZE : Nat) (fs1 fs2 : TSK_FS_INFO) (inum : Nat)
    (hfirst : fs1.first_block = fs2.first_block) (hlast : fs1.last_block = fs2.last_block)
    (hb : ∀ i, i < 6 → image_byte fs1 (inum + i) = image_byte fs2 (inum + i)) :
    reg_load_cell HBIN_SIZE fs1 inum = reg_load_cell HBIN_SIZE fs2 inum ∧
      ∀ rd ∈ (reg_load_cell HBIN_SIZE fs1 inum).reads,
        inum ≤ rd.1 ∧ rd.1 + rd.2 ≤ inum + 6 := by
  have r4 : tsk_fs_read fs1 inum 4 = tsk_fs_read fs2 inum 4 :=
    tsk_fs_read_congr fs1 fs2 inum 4 (by omega) (fun i hi => hb i (by omega))
  have r2 : tsk_fs_read fs1 (inum + 4) 2 = tsk_fs_read fs2 (inum + 4) 2 :=
    tsk_fs_read_congr fs1 fs2 (inum + 4) 2 (by omega) (fun i hi => by
      have h := hb (4 + i) (by omega)
      rw [← Nat.add_assoc] at h
      exact h)
  constructor
  · unfold reg_load_cell
    rw [hfirst, hlast, r4, r2]
  · intro rd hrd
    unfold reg_load_cell at hrd
    by_cases hr : inum < fs1.first_block ∨ inum > fs1.last_block
    · rw [if_pos hr] at hrd
      simp at hrd
    · rw [if_neg hr] at hrd
      cases h4 : tsk_fs_read fs1 inum 4 with
      | none =>
        rw [h4] at hrd
        simp only [List.mem_singleton] at hrd
        subst hrd
        simp
      | some buf =>
        rw [h4] at hrd
        simp only [ge_iff_le] at hrd
        by_cases hl : HBIN_SIZE ≤ (reg_cell_length buf).2
        · rw [if_pos hl] at hrd
          simp only [List.mem_singleton] at hrd
          subst hrd
          simp
        · rw [if_neg hl] at hrd
          cases h2 : tsk_fs_read fs1 (inum + 4) 2 with
          | none =>
            rw [h2] at hrd
            simp only [List.mem_cons, List.mem_singleton, List.not_mem_nil, or_false] at hrd
            rcases hrd with h | h <;> subst h <;> simp
          | some buf2 =>
            rw [h2] at hrd
            simp only [List.mem_cons, List.mem_singleton, List.not_mem_nil, or_false] at hrd
            rcases hrd with h | h <;> subst h <;> simp

/-- The round trip of C2 on a concrete hive: the field 0xFFFFFFE0 at 0x1020 loads as an
allocated NK cell of length 0x20, and bit 31 of the field is set. -/
theorem reg_load_cell_is_allocated_witness :
    (reg_load_cell 4096 (cell_fs (le32 (2 ^ 32 - 0x20) ++ tag_bytes 'n' 'k')) 0x1020).ret =
        TSK_OK ⟨0x1020, true, 0x20, TSK_REGFS_RECORD_TYPE_NK⟩ ∧
      (tsk_getu32 (image_bytes (cell_fs (le32 (2 ^ 32 - 0x20) ++ tag_bytes 'n' 'k'))
        0x1020 4)).testBit 31 = true :=
  have h := reg_load_cell_is_allocated 4096
    (cell_fs (le32 (2 ^ 32 - 0x20) ++ tag_bytes 'n' 'k')) 0x1020
  have hr := (h.2 0x20 (by decide) (by decide) (by decide) (by decide) (by decide)
    (by decide)).1 (by decide)
  ⟨hr, (h.1 _ hr).mp rfl⟩

/-- The rejections of C3 on a concrete hive: a field holding exactly the bin size 4096
is refused as corrupt. -/
theorem reg_load_cell_corrupt_witness :
    (reg_load_cell 4096 (cell_fs (le32 4096)) 0x1020).ret = TSK_ERR TSK_ERR_FS_INODE_COR :=
  (reg_load_cell_corrupt 4096 (cell_fs (le32 4096)) 0x1020).2.2.2.2 (by decide) (by decide)
    (by decide) (by decide) (by decide)

/-- The type mapping of C4 on a concrete hive: an unallocated 0x20-byte cell tagged with
the bytes "zz" loads with success. -/
theorem reg_load_cell_type_witness :
    ∃ cell, (reg_load_cell 4096 (cell_fs (le32 0x20 ++ tag_bytes 'z' 'z')) 0x1020).ret =
        TSK_OK cell ∧
      cell.type = reg_record_type
        (tsk_getu16 (image_bytes (cell_fs (le32 0x20 ++ tag_bytes 'z' 'z')) (0x1020 + 4) 2)) :=
  (reg_load_cell_type 4096 (cell_fs (le32 0x20 ++ tag_bytes 'z' 'z')) 0x1020).1 (by decide)
    (by decide) (by decide) (by decide)

/-- Two hives that differ only behind the six header bytes of the cell at 0x1020 load
the same cell there. -/
theorem reg_load_cell_six_bytes_witness :
    reg_load_cell 4096 (cell_fs (le32 0x20 ++ tag_bytes 'v' 'k' ++ [1, 2, 3])) 0x1020 =
        reg_load_cell 4096 (cell_fs (le32 0x20 ++ tag_bytes 'v' 'k' ++ [7, 7])) 0x1020 ∧
      ∀ rd ∈ (reg_load_cell 4096 (cell_fs (le32 0x20 ++ tag_bytes 'v' 'k' ++ [1, 2, 3]))
          0x1020).reads, 0x1020 ≤ rd.1 ∧ rd.1 + rd.2 ≤ 0x1020 + 6 :=
  reg_load_cell_six_bytes 4096 _ _ 0x1020 rfl rfl (by decide)

/-! ## The block walker -/

section Walk

variable (HBIN_SIZE : Nat) (fs : TSK_FS_INFO) (a_end_blk : Nat)
  (a_flags : TSK_FS_BLOCK_WALK_FLAG_ENUM) (calls : List (Nat × TSK_FS_BLOCK_FLAG_ENUM))

theorem reg_block_walk_loop_done (fuel addr cur : Nat) (h : ¬ addr < a_end_blk) :
    reg_block_walk_loop HBIN_SIZE fs a_end_blk a_flags calls (fuel + 1) addr cur =
      some ⟨0, none, a_flags, [], calls⟩ := by
  rw [reg_block_walk_loop, if_neg h]

theorem reg_block_walk_loop_err (fuel addr cur : Nat) (e : TSK_ERR_ENUM)
    (h : addr < a_end_blk) (hl : (reg_load_cell HBIN_SIZE fs addr).ret = TSK_ERR e) :
    reg_block_walk_loop HBIN_SIZE fs a_end_blk a_flags calls (fuel + 1) addr cur =
      some ⟨1, some e, a_flags, [⟨addr, cur, reg_load_cell HBIN_SIZE fs addr⟩], calls⟩ := by
  rw [reg_block_walk_loop, if_pos h]
  simp only [hl]

theorem reg_block_walk_loop_overrun (fuel addr cur : Nat) (cell : REGFS_CELL)
    (h : addr < a_end_blk) (hl : (reg_load_cell HBIN_SIZE fs addr).ret = TSK_OK cell)
    (ho : reg_walk_overrun HBIN_SIZE addr cell.length cur) :
    reg_block_walk_loop HBIN_SIZE fs a_end_blk a_flags calls (fuel + 1) addr cur =
      some ⟨1, some TSK_ERR_FS_BLK_NUM, a_flags,
        [⟨addr, cur, reg_load_cell HBIN_SIZE fs addr⟩], calls⟩ := by
  rw [reg_block_walk_loop, if_pos h]
  simp only [hl, ho, if_true]

theorem reg_block_walk_loop_step (fuel addr cur : Nat) (cell : REGFS_CELL)
    (h : addr < a_end_blk) (hl : (reg_load_cell HBIN_SIZE fs addr).ret = TSK_OK cell)
    (ho : ¬ reg_walk_overrun HBIN_SIZE addr cell.length cur) :
    reg_block_walk_loop HBIN_SIZE fs a_end_blk a_flags calls (fuel + 1) addr cur =
      (reg_block_walk_loop HBIN_SIZE fs a_end_blk a_flags calls fuel
        (reg_walk_next_addr HBIN_SIZE addr cell.length cur)
        (reg_walk_next_hbin HBIN_SIZE addr cell.length cur)).map
          (fun r => ⟨r.ret, r.errno, r.a_flags,
            ⟨addr, cur, reg_load_cell HBIN_SIZE fs addr⟩ :: r.iters, r.calls⟩) := by
  rw [reg_block_walk_loop, if_pos h]
  simp only [hl, ho, if_false]

/-- The four ways an iteration of the loop can end. -/
theorem reg_block_walk_loop_cases (fuel addr cur : Nat) (r : REG_WALK)
    (h : reg_block_walk_loop HBIN_SIZE fs a_end_blk a_flags calls (fuel + 1) addr cur = some r) :
    (¬ addr < a_end_blk ∧ r = ⟨0, none, a_flags, [], calls⟩) ∨
    (addr < a_end_blk ∧ ∃ e, (reg_load_cell HBIN_SIZE fs addr).ret = TSK_ERR e ∧
      r = ⟨1, some e, a_flags, [⟨addr, cur, reg_load_cell HBIN_SIZE fs addr⟩], calls⟩) ∨
    (addr < a_end_blk ∧ ∃ cell, (reg_load_cell HBIN_SIZE fs addr).ret = TSK_OK cell ∧
      reg_walk_overrun HBIN_SIZE addr cell.length cur ∧
      r = ⟨1, some TSK_ERR_FS_BLK_NUM, a_flags,
        [⟨addr, cur, reg_load_cell HBIN_SIZE fs addr⟩], calls⟩) ∨
    (addr < a_end_blk ∧ ∃ cell r1, (reg_load_cell HBIN_SIZE fs addr).ret = TSK_OK cell ∧
      ¬ reg_walk_overrun HBIN_SIZE addr cell.length cur ∧
      reg_block_walk_loop HBIN_SIZE fs a_end_blk a_flags calls fuel
        (reg_walk_next_addr HBIN_SIZE addr cell.length cur)
        (reg_walk_next_hbin HBIN_SIZE addr cell.length cur) = some r1 ∧
      r = ⟨r1.ret, r1.errno, r1.a_flags,
        ⟨addr, cur, reg_load_cell HBIN_SIZE fs addr⟩ :: r1.iters, r1.calls⟩) := by
  by_cases ha : addr < a_end_blk
  · cases hl : (reg_load_cell HBIN_SIZE fs addr).ret with
    | TSK_ERR e =>
      rw [reg_block_walk_loop_err HBIN_SIZE fs a_end_blk a_flags calls fuel addr cur e ha hl] at h
      exact Or.inr (Or.inl ⟨ha, e, rfl, (Option.some.inj h).symm⟩)
    | TSK_OK cell =>
      by_cases ho : reg_walk_overrun HBIN_SIZE addr cell.length cur
      · rw [reg_block_walk_loop_overrun HBIN_SIZE fs a_end_blk a_flags calls fuel addr cur cell
          ha hl ho] at h
        exact Or.inr (Or.inr (Or.inl ⟨ha, cell, rfl, ho, (Option.some.inj h).symm⟩))
      · rw [reg_block_walk_loop_step HBIN_SIZE fs a_end_blk a_flags calls fuel addr cur cell
          ha hl ho] at h
        cases hn : reg_block_walk_loop HBIN_SIZE fs a_end_blk a_flags calls fuel
            (reg_walk_next_addr HBIN_SIZE addr cell.length cur)
            (reg_walk_next_hbin HBIN_SIZE addr cell.length cur) with
        | none =>
          rw [hn] at h
          cases h
        | some r1 =>
          rw [hn] at h
          exact Or.inr (Or.inr (Or.inr ⟨ha, cell, r1, rfl, ho, hn, (Option.some.inj h).symm⟩))
  · rw [reg_block_walk_loop_done HBIN_SIZE fs a_end_blk a_flags calls fuel addr cur ha] at h
    exact Or.inl ⟨ha, (Option.some.inj h).symm⟩

theorem reg_walk_overrun_of_gt (addr length cur : Nat) (hH : 0 < HBIN_SIZE)
    (h : addr + length > cur + HBIN_SIZE - 1) :
    reg_walk_overrun HBIN_SIZE addr length cur := by
  unfold reg_walk_overrun u32
  omega

/-- Every iteration recorded by the loop holds the call of the loader at its address. -/
theorem reg_block_walk_loop_load (fuel : Nat) : ∀ (addr cur : Nat) (r : REG_WALK),
    reg_block_walk_loop HBIN_SIZE fs a_end_blk a_flags calls fuel addr cur = some r →
    ∀ it ∈ r.iters, it.load = reg_load_cell HBIN_SIZE fs it.addr := by
  induction fuel with
  | zero =>
    intro addr cur r h
    simp [reg_block_walk_loop] at h
  | succ fuel ih =>
    intro addr cur r h it hit
    rcases reg_block_walk_loop_cases HBIN_SIZE fs a_end_blk a_flags calls fuel addr cur r h with
      ⟨_, hr⟩ | ⟨_, e, _, hr⟩ | ⟨_, cell, _, _, hr⟩ | ⟨_, cell, r1, _, _, hn, hr⟩
    · subst hr
      simp at hit
    · subst hr
      simp only [List.mem_singleton] at hit
      subst hit
      rfl
    · subst hr
      simp only [List.mem_singleton] at hit
      subst hit
      rfl
    · subst hr
      simp only [List.mem_cons] at hit
      rcases hit with hit | hit
      · subst hit
        rfl
      · exact ih _ _ r1 hn it hit

/-- In the iterations of a finished loop, an iteration whose loaded cell fails the
overrun test is the last one, and the loop returned 1 with the block-number error. -/
theorem reg_block_walk_loop_overrun_last (fuel : Nat) : ∀ (addr cur : Nat) (r : REG_WALK),
    reg_block_walk_loop HBIN_SIZE fs a_end_blk a_flags calls fuel addr cur = some r →
    ∀ (pre post : List REG_WALK_ITER) (it : REG_WALK_ITER) (cell : REGFS_CELL),
      r.iters = pre ++ it :: post → it.load.ret = TSK_OK cell →
      reg_walk_overrun HBIN_SIZE it.addr cell.length it.current_hbin_start →
      post = [] ∧ r.ret = 1 ∧ r.errno = some TSK_ERR_FS_BLK_NUM := by
  induction fuel with
  | zero =>
    intro addr cur r h
    simp [reg_block_walk_loop] at h
  | succ fuel ih =>
    intro addr cur r h pre post it cell hi hc ho
    rcases reg_block_walk_loop_cases HBIN_SIZE fs a_end_blk a_flags calls fuel addr cur r h with
      ⟨_, hr⟩ | ⟨_, e, hl, hr⟩ | ⟨_, cell1, _, _, hr⟩ | ⟨_, cell1, r1, hl, hno, hn, hr⟩
    · subst hr
      simp at hi
    · subst hr
      cases pre with
      | nil =>
        simp only [List.nil_append, List.cons.injEq] at hi
        obtain ⟨hit, _⟩ := hi
        subst hit
        rw [hl] at hc
        cases hc
      | cons p pre => simp at hi
    · subst hr
      cases pre with
      | nil =>
        simp only [List.nil_append, List.cons.injEq] at hi
        exact ⟨hi.2.symm, rfl, rfl⟩
      | cons p pre => simp at hi
    · subst hr
      cases pre with
      | nil =>
        simp only [List.nil_append, List.cons.injEq] at hi
        obtain ⟨hit, _⟩ := hi
        subst hit
        simp only at hc ho
        rw [hl] at hc
        cases hc
        exact absurd ho hno
      | cons p pre =>
        simp only [List.cons_append, List.cons.injEq] at hi
        exact ih _ _ r1 hn pre post it cell hi.2 hc ho

/-- A successfully loaded cell is shorter than the bin size. -/
theorem reg_load_cell_length_lt (addr : Nat) (cell : REGFS_CELL)
    (h : (reg_load_cell HBIN_SIZE fs addr).ret = TSK_OK cell) : cell.length < HBIN_SIZE := by
  obtain ⟨_, _, _, hlen, hc⟩ := reg_load_cell_ok_inv HBIN_SIZE fs addr cell h
  rw [hc]
  exact hlen

/-- While the current bin ends below `2 ^ 32`, a cell that passes the overrun test
leaves the bin start as it is and moves the cursor forward by its length. -/
theorem reg_walk_next_of_no_wrap (addr length cur : Nat) (hlen : length < HBIN_SIZE)
    (hc : cur + HBIN_SIZE < 2 ^ 32)
    (ho : ¬ reg_walk_overrun HBIN_SIZE addr length cur) :
    reg_walk_next_addr HBIN_SIZE addr length cur = addr + length ∧
      reg_walk_next_hbin HBIN_SIZE addr length cur = cur := by
  unfold reg_walk_overrun u32 at ho
  unfold reg_walk_next_addr reg_walk_next_hbin u32
  have h1 : ¬ addr + length > (cur + HBIN_SIZE) % 2 ^ 32 := by omega
  rw [if_neg h1, if_neg h1]
  exact ⟨rfl, rfl⟩

/-- The loop tests `addr < a_end_blk` before every load; and while the current bin ends
below `2 ^ 32` the cursor never moves backwards. -/
theorem reg_block_walk_loop_addr (fuel : Nat) : ∀ (addr cur : Nat) (r : REG_WALK),
    reg_block_walk_loop HBIN_SIZE fs a_end_blk a_flags calls fuel addr cur = some r →
    ∀ it ∈ r.iters, it.addr < a_end_blk ∧ (cur + HBIN_SIZE < 2 ^ 32 → addr ≤ it.addr) := by
  induction fuel with
  | zero =>
    intro addr cur r h
    simp [reg_block_walk_loop] at h
  | succ fuel ih =>
    intro addr cur r h it hit
    rcases reg_block_walk_loop_cases HBIN_SIZE fs a_end_blk a_flags calls fuel addr cur r h with
      ⟨_, hr⟩ | ⟨ha, e, _, hr⟩ | ⟨ha, cell, _, _, hr⟩ | ⟨ha, cell, r1, hl, hno, hn, hr⟩
    · subst hr
      simp at hit
    · subst hr
      simp only [List.mem_singleton] at hit
      subst hit
      exact ⟨ha, fun _ => le_refl _⟩
    · subst hr
      simp only [List.mem_singleton] at hit
      subst hit
      exact ⟨ha, fun _ => le_refl _⟩
    · subst hr
      simp only [List.mem_cons] at hit
      rcases hit with hit | hit
      · subst hit
        exact ⟨ha, fun _ => le_refl _⟩
      · have h2 := ih _ _ r1 hn it hit
        refine ⟨h2.1, fun hc => ?_⟩
        have hlen := reg_load_cell_length_lt HBIN_SIZE fs addr cell hl
        obtain ⟨e1, e2⟩ := reg_walk_next_of_no_wrap HBIN_SIZE addr cell.length cur hlen hc hno
        rw [e1, e2] at h2
        have := h2.2 hc
        omega

/-- The loop never invokes the callback: the invocations at the end are those at the
start. -/
theorem reg_block_walk_loop_calls (fuel : Nat) : ∀ (addr cur : Nat) (r : REG_WALK),
    reg_block_walk_loop HBIN_SIZE fs a_end_blk a_flags calls fuel addr cur = some r →
    r.calls = calls := by
  induction fuel with
  | zero =>
    intro addr cur r h
    simp [reg_block_walk_loop] at h
  | succ fuel ih =>
    intro addr cur r h
    rcases reg_block_walk_loop_cases HBIN_SIZE fs a_end_blk a_flags calls fuel addr cur r h with
      ⟨_, hr⟩ | ⟨_, e, _, hr⟩ | ⟨_, cell, _, _, hr⟩ | ⟨_, cell, r1, _, _, hn, hr⟩
    · subst hr
      rfl
    · subst hr
      rfl
    · subst hr
      rfl
    · subst hr
      exact ih _ _ r1 hn

/-- On the hive whose cell at 0x1020 has a zero length field, the loop started at that
cell with end 0x1021 is still running after every number of iterations. -/
theorem reg_block_walk_loop_zero_length (fuel : Nat) :
    reg_block_walk_loop 4096 (cell_fs []) 0x1021 a_flags calls fuel 0x1020 0x1000 = none := by
  induction fuel with
  | zero => rfl
  | succ fuel ih =>
    have hl : (reg_load_cell 4096 (cell_fs []) 0x1020).ret =
        TSK_OK ⟨0x1020, false, 0, TSK_REGFS_RECORD_TYPE_UNKNOWN⟩ := by decide
    rw [reg_block_walk_loop_step 4096 (cell_fs []) 0x1021 a_flags calls fuel 0x1020 0x1000 _
      (by decide) hl (by decide)]
    have e1 : reg_walk_next_addr 4096 0x1020 0 0x1000 = 0x1020 := by decide
    have e2 : reg_walk_next_hbin 4096 0x1020 0 0x1000 = 0x1000 := by decide
    simp only [e1, e2, ih, Option.map_none']

end Walk

/-- C6: in `reg_block_walk` (bin size positive), whenever the cell loaded at the cursor
`addr` satisfies `addr + cell.length > current_hbin_start + HBIN_SIZE - 1`, the loop
returns at once with value 1 and the block-number error, this load being its only
iteration from there; and in every finished walk an iteration whose cell satisfies that
condition is the last iteration, the walk returning 1: no cell that straddles the bin end
is stepped over and no further cell is loaded after it. -/
theorem reg_block_walk_overrun (HBIN_SIZE : Nat) (fs : TSK_FS_INFO) (a_end_blk : Nat)
    (hH : 0 < HBIN_SIZE) :
    (∀ (a_flags : TSK_FS_BLOCK_WALK_FLAG_ENUM) (calls : List (Nat × TSK_FS_BLOCK_FLAG_ENUM))
        (fuel addr cur : Nat) (cell : REGFS_CELL),
      addr < a_end_blk → (reg_load_cell HBIN_SIZE fs addr).ret = TSK_OK cell →
      addr + cell.length > cur + HBIN_SIZE - 1 →
      reg_block_walk_loop HBIN_SIZE fs a_end_blk a_flags calls (fuel + 1) addr cur =
        some ⟨1, some TSK_ERR_FS_BLK_NUM, a_flags,
          [⟨addr, cur, reg_load_cell HBIN_SIZE fs addr⟩], calls⟩) ∧
    (∀ (a_start_blk : Nat) (a_flags : TSK_FS_BLOCK_WALK_FLAG_ENUM) (fuel : Nat) (r : REG_WALK)
        (pre post : List REG_WALK_ITER) (it : REG_WALK_ITER) (cell : REGFS_CELL),
      reg_block_walk HBIN_SIZE fs a_start_blk a_end_blk a_flags fuel = some r →
      r.iters = pre ++ it :: post →
      it.load = reg_load_cell HBIN_SIZE fs it.addr ∧
      (it.load.ret = TSK_OK cell →
        it.addr + cell.length > it.current_hbin_start + HBIN_SIZE - 1 →
        post = [] ∧ r.ret = 1 ∧ r.errno = some TSK_ERR_FS_BLK_NUM)) := by
  constructor
  · intro a_flags calls fuel addr cur cell ha hl ho
    exact reg_block_walk_loop_overrun HBIN_SIZE fs a_end_blk a_flags calls fuel addr cur cell ha hl
      (reg_walk_overrun_of_gt HBIN_SIZE addr cell.length cur hH ho)
  · intro a_start_blk a_flags fuel r pre post it cell hw hi
    unfold reg_block_walk at hw
    by_cases h1 : a_start_blk < fs.first_block ∨ a_start_blk > fs.last_block
    · rw [if_pos h1] at hw
      cases hw
      simp at hi
    · rw [if_neg h1] at hw
      by_cases h2 : a_end_blk < fs.first_block ∨ a_end_blk > fs.last_block
      · rw [if_pos h2] at hw
        cases hw
        simp at hi
      · rw [if_neg h2] at hw
        constructor
        · exact reg_block_walk_loop_load HBIN_SIZE fs a_end_blk _ _ fuel _ _ r hw it
            (by rw [hi]; simp)
        · intro hc ho
          exact reg_block_walk_loop_overrun_last HBIN_SIZE fs a_end_blk _ _ fuel _ _ r hw pre post
            it cell hi hc (reg_walk_overrun_of_gt HBIN_SIZE _ _ _ hH ho)

/-- The overrun stop of C6 on the scenario-C hive: the last cell of the first bin, at
0x1FE0 with length 0x20, ends beyond 0x1FFF, and the loop returns 1 there. -/
theorem reg_block_walk_overrun_witness :
    reg_block_walk_loop 4096 scenarioC_fs 0x2000 ⟨true, true, true, true⟩ [] 1 0x1FE0 0x1000 =
      some ⟨1, some TSK_ERR_FS_BLK_NUM, ⟨true, true, true, true⟩,
        [⟨0x1FE0, 0x1000, reg_load_cell 4096 scenarioC_fs 0x1FE0⟩], []⟩ :=
  (reg_block_walk_overrun 4096 scenarioC_fs 0x2000 (by decide)).1 ⟨true, true, true, true⟩ [] 0
    0x1FE0 0x1000 ⟨0x1FE0, true, 0x20, TSK_REGFS_RECORD_TYPE_UNKNOWN⟩ (by decide) (by decide)
    (by decide)

set_option maxRecDepth 1000000 in
/-- C7 (scenario C, bin size 4096): on the hive of three bins filled exactly by
0x20-byte cells with unknown tags, the walk from `first_block` = 0x1020 to
`first_block + 3 * 4096` = 0x4020 does not succeed: it returns 1 with the block-number
error after 127 iterations, all in the first bin; the last one loads the cell at 0x1FE0,
which ends exactly at the end of the bin, and the bin start is still 0x1000 there. -/
theorem reg_block_walk_scenarioC :
    (reg_block_walk 4096 scenarioC_fs 0x1020 0x4020 ⟨false, false, false, false⟩ 200).map
        (fun r => (r.ret, r.errno, r.iters.length)) =
      some (1, some TSK_ERR_FS_BLK_NUM, 127) ∧
    (reg_block_walk 4096 scenarioC_fs 0x1020 0x4020 ⟨false, false, false, false⟩ 200).map
        (fun r => r.iters.getLast?.map
          (fun it => (it.addr, it.current_hbin_start, it.load.ret))) =
      some (some (0x1FE0, 0x1000,
        TSK_OK ⟨0x1FE0, true, 0x20, TSK_REGFS_RECORD_TYPE_UNKNOWN⟩)) ∧
    3 * ((4096 - 0x20) / 0x20) = 381 := by
  decide

/-- C8: on a hive whose cell at 0x1020 is an unallocated cell of declared length 0, the
walk over `[0x1020, 0x1021)` never returns, whatever the filter: for every number of
loop iterations allowed, the loop is still running. -/
theorem reg_block_walk_zero_length_diverges (a_flags : TSK_FS_BLOCK_WALK_FLAG_ENUM)
    (fuel : Nat) :
    (reg_load_cell 4096 (cell_fs []) 0x1020).ret =
        TSK_OK ⟨0x1020, false, 0, TSK_REGFS_RECORD_TYPE_UNKNOWN⟩ ∧
      reg_block_walk 4096 (cell_fs []) 0x1020 0x1021 a_flags fuel = none := by
  refine ⟨by decide, ?_⟩
  unfold reg_block_walk
  rw [if_neg (by decide), if_neg (by decide)]
  have e : u32 (0x1020 - 0x1020 % 4096) = 0x1000 := by decide
  rw [e]
  exact reg_block_walk_loop_zero_length _ _ fuel

/-- On `edge_fs`, whose `first_block` is 0x20, the walk over `[0xFFFFF020, 0xFFFFFFFF)`
loads the cell at 0xFFFFF020, then takes the header skip because the 32-bit sum
`current_hbin_start + HBIN_SIZE` is 0, and loads its second cell at 0x20, below the
start of the range: the bound `0x20 < first_block` of a hive that lies behind a header
cannot be left out of the address bounds of a walk. -/
theorem reg_block_walk_edge_fs_addresses :
    (reg_block_walk 4096 edge_fs 0xFFFFF020 0xFFFFFFFF ⟨true, true, true, true⟩ 3).map
        (fun r => (r.ret, r.iters.map (fun it => (it.addr, it.current_hbin_start, it.load.ret)))) =
      some (1, [(0xFFFFF020, 0xFFFFF000,
          TSK_OK ⟨0xFFFFF020, false, 0x20, TSK_REGFS_RECORD_TYPE_UNKNOWN⟩),
        (0x20, 0, TSK_OK ⟨0x20, false, 0xFE0, TSK_REGFS_RECORD_TYPE_UNKNOWN⟩)]) ∧
      ¬ (0xFFFFF020 ≤ 0x20) := by
  decide

/-- C10: the walk over `[0x1020, 0x1021)` of the scenario-C hive with an empty filter
returns 0 after loading the allocated, unknown-typed cell at 0x1020; the filter has been
widened to all four flags, so that cell (classified ALLOC and CONT) matches it and is to
be visited, but the callback has not been invoked. -/
theorem reg_block_walk_no_visit :
    (reg_block_walk 4096 scenarioC_fs 0x1020 0x1021 ⟨false, false, false, false⟩ 2).map
        (fun r => (r.ret, r.a_flags, r.iters.map (fun it => it.load.ret))) =
      some (0, ⟨true, true, true, true⟩,
        [TSK_OK ⟨0x1020, true, 0x20, TSK_REGFS_RECORD_TYPE_UNKNOWN⟩]) ∧
    (reg_block_walk 4096 scenarioC_fs 0x1020 0x1021 ⟨false, false, false, false⟩ 2).map
        (fun r => (spec_visited r.a_flags r.iters, r.calls)) =
      some ([(0x1020, ⟨true, false, true, false⟩)], []) := by
  decide

/-! ## Errors of the loader inside a walk -/

section WalkErrors

variable (HBIN_SIZE : Nat) (fs : TSK_FS_INFO) (a_end_blk : Nat)
  (a_flags : TSK_FS_BLOCK_WALK_FLAG_ENUM) (calls : List (Nat × TSK_FS_BLOCK_FLAG_ENUM))

/-- In the iterations of a finished loop, an iteration whose load failed is the last
one, and the loop returned 1 with the error of that load. -/
theorem reg_block_walk_loop_err_last (fuel : Nat) : ∀ (addr cur : Nat) (r : REG_WALK),
    reg_block_walk_loop HBIN_SIZE fs a_end_blk a_flags calls fuel addr cur = some r →
    ∀ (pre post : List REG_WALK_ITER) (it : REG_WALK_ITER) (e : TSK_ERR_ENUM),
      r.iters = pre ++ it :: post → it.load.ret = TSK_ERR e →
      post = [] ∧ r.ret = 1 ∧ r.errno = some e := by
  induction fuel with
  | zero =>
    intro addr cur r h
    simp [reg_block_walk_loop] at h
  | succ fuel ih =>
    intro addr cur r h pre post it e hi hc
    rcases reg_block_walk_loop_cases HBIN_SIZE fs a_end_blk a_flags calls fuel addr cur r h with
      ⟨_, hr⟩ | ⟨_, e1, hl, hr⟩ | ⟨_, cell1, hl, _, hr⟩ | ⟨_, cell1, r1, hl, _, hn, hr⟩
    · subst hr
      simp at hi
    · subst hr
      cases pre with
      | nil =>
        simp only [List.nil_append, List.cons.injEq] at hi
        obtain ⟨hit, hpost⟩ := hi
        subst hit
        simp only at hc
        rw [hl] at hc
        cases hc
        exact ⟨hpost.symm, rfl, rfl⟩
      | cons p pre => simp at hi
    · subst hr
      cases pre with
      | nil =>
        simp only [List.nil_append, List.cons.injEq] at hi
        obtain ⟨hit, _⟩ := hi
        subst hit
        simp only at hc
        rw [hl] at hc
        cases hc
      | cons p pre => simp at hi
    · subst hr
      cases pre with
      | nil =>
        simp only [List.nil_append, List.cons.injEq] at hi
        obtain ⟨hit, _⟩ := hi
        subst hit
        simp only at hc
        rw [hl] at hc
        cases hc
      | cons p pre =>
        simp only [List.cons_append, List.cons.injEq] at hi
        exact ih _ _ r1 hn pre post it e hi.2 hc

/-- The loop returns 0 or 1; when it returns 0, every iteration loaded its cell
successfully and the cell passed the overrun test. -/
theorem reg_block_walk_loop_success (fuel : Nat) : ∀ (addr cur : Nat) (r : REG_WALK),
    reg_block_walk_loop HBIN_SIZE fs a_end_blk a_flags calls fuel addr cur = some r →
    (r.ret = 0 ∨ r.ret = 1) ∧
    (r.ret = 0 → ∀ it ∈ r.iters, ∃ cell, it.load.ret = TSK_OK cell ∧
      ¬ reg_walk_overrun HBIN_SIZE it.addr cell.length it.current_hbin_start) := by
  induction fuel with
  | zero =>
    intro addr cur r h
    simp [reg_block_walk_loop] at h
  | succ fuel ih =>
    intro addr cur r h
    rcases reg_block_walk_loop_cases HBIN_SIZE fs a_end_blk a_flags calls fuel addr cur r h with
      ⟨_, hr⟩ | ⟨_, e1, hl, hr⟩ | ⟨_, cell1, hl, _, hr⟩ | ⟨_, cell1, r1, hl, hno, hn, hr⟩
    · subst hr
      exact ⟨Or.inl rfl, fun _ it hit => by simp at hit⟩
    · subst hr
      exact ⟨Or.inr rfl, fun h0 => by simp at h0⟩
    · subst hr
      exact ⟨Or.inr rfl, fun h0 => by simp at h0⟩
    · subst hr
      obtain ⟨h01, hall⟩ := ih _ _ r1 hn
      refine ⟨h01, fun h0 it hit => ?_⟩
      simp only [List.mem_cons] at hit
      rcases hit with hit | hit
      · subst hit
        exact ⟨cell1, hl, hno⟩
      · exact hall h0 it hit

end WalkErrors

/-- C11: in `reg_block_walk`, when `reg_load_cell` fails at the cursor (whatever the
error: out of range, short read or corrupt length) the loop returns 1 at once with the
error of the load, that load being its only iteration from there; in every finished walk
an iteration whose load failed is the last iteration and the walk returned 1 with that
error; and a walk that returns 0 loaded every cell successfully, each passing the overrun
test. -/
theorem reg_block_walk_load_error (HBIN_SIZE : Nat) (fs : TSK_FS_INFO) (a_end_blk : Nat) :
    (∀ (a_flags : TSK_FS_BLOCK_WALK_FLAG_ENUM) (calls : List (Nat × TSK_FS_BLOCK_FLAG_ENUM))
        (fuel addr cur : Nat) (e : TSK_ERR_ENUM),
      addr < a_end_blk → (reg_load_cell HBIN_SIZE fs addr).ret = TSK_ERR e →
      reg_block_walk_loop HBIN_SIZE fs a_end_blk a_flags calls (fuel + 1) addr cur =
        some ⟨1, some e, a_flags, [⟨addr, cur, reg_load_cell HBIN_SIZE fs addr⟩], calls⟩) ∧
    (∀ (a_start_blk : Nat) (a_flags : TSK_FS_BLOCK_WALK_FLAG_ENUM) (fuel : Nat) (r : REG_WALK)
        (pre post : List REG_WALK_ITER) (it : REG_WALK_ITER) (e : TSK_ERR_ENUM),
      reg_block_walk HBIN_SIZE fs a_start_blk a_end_blk a_flags fuel = some r →
      r.iters = pre ++ it :: post → it.load.ret = TSK_ERR e →
      it.load = reg_load_cell HBIN_SIZE fs it.addr ∧
        post = [] ∧ r.ret = 1 ∧ r.errno = some e) ∧
    (∀ (a_start_blk : Nat) (a_flags : TSK_FS_BLOCK_WALK_FLAG_ENUM) (fuel : Nat) (r : REG_WALK),
      reg_block_walk HBIN_SIZE fs a_start_blk a_end_blk a_flags fuel = some r →
      (r.ret = 0 ∨ r.ret = 1) ∧
      (r.ret = 0 → ∀ it ∈ r.iters, ∃ cell, it.load = reg_load_cell HBIN_SIZE fs it.addr ∧
        it.load.ret = TSK_OK cell ∧
        ¬ reg_walk_overrun HBIN_SIZE it.addr cell.length it.current_hbin_start)) := by
  refine ⟨?_, ?_, ?_⟩
  · intro a_flags calls fuel addr cur e ha hl
    exact reg_block_walk_loop_err HBIN_SIZE fs a_end_blk a_flags calls fuel addr cur e ha hl
  · intro a_start_blk a_flags fuel r pre post it e hw hi hc
    unfold reg_block_walk at hw
    by_cases h1 : a_start_blk < fs.first_block ∨ a_start_blk > fs.last_block
    · rw [if_pos h1] at hw
      cases hw
      simp at hi
    · rw [if_neg h1] at hw
      by_cases h2 : a_end_blk < fs.first_block ∨ a_end_blk > fs.last_block
      · rw [if_pos h2] at hw
        cases hw
        simp at hi
      · rw [if_neg h2] at hw
        exact ⟨reg_block_walk_loop_load HBIN_SIZE fs a_end_blk _ _ fuel _ _ r hw it
            (by rw [hi]; simp),
          reg_block_walk_loop_err_last HBIN_SIZE fs a_end_blk _ _ fuel _ _ r hw pre post it e
            hi hc⟩
  · intro a_start_blk a_flags fuel r hw
    unfold reg_block_walk at hw
    by_cases h1 : a_start_blk < fs.first_block ∨ a_start_blk > fs.last_block
    · rw [if_pos h1] at hw
      cases hw
      exact ⟨Or.inr rfl, fun h0 => by simp at h0⟩
    · rw [if_neg h1] at hw
      by_cases h2 : a_end_blk < fs.first_block ∨ a_end_blk > fs.last_block
      · rw [if_pos h2] at hw
        cases hw
        exact ⟨Or.inr rfl, fun h0 => by simp at h0⟩
      · rw [if_neg h2] at hw
        obtain ⟨h01, hall⟩ := reg_block_walk_loop_success HBIN_SIZE fs a_end_blk _ _ fuel _ _ r hw
        refine ⟨h01, fun h0 it hit => ?_⟩
        obtain ⟨cell, hc, hno⟩ := hall h0 it hit
        exact ⟨cell, reg_block_walk_loop_load HBIN_SIZE fs a_end_blk _ _ fuel _ _ r hw it hit,
          hc, hno⟩

/-- The abort of C11 on a concrete hive: the cell at 0x1020 declares the length 0x1000,
so its load fails as corrupt and the loop over `[0x1020, 0x2000)` returns 1 with that
error after this single load. -/
theorem reg_block_walk_load_error_witness :
    reg_block_walk_loop 4096 (cell_fs (le32 0x1000)) 0x2000 ⟨true, true, true, true⟩ [] 1 0x1020
        0x1000 =
      some ⟨1, some TSK_ERR_FS_INODE_COR, ⟨true, true, true, true⟩,
        [⟨0x1020, 0x1000, reg_load_cell 4096 (cell_fs (le32 0x1000)) 0x1020⟩], []⟩ :=
  (reg_block_walk_load_error 4096 (cell_fs (le32 0x1000)) 0x2000).1 ⟨true, true, true, true⟩ []
    0 0x1020 0x1000 TSK_ERR_FS_INODE_COR (by decide) (by decide)

/-! ## The hive header -/

theorem image_bytes_getD (fs : TSK_FS_INFO) (off n i : Nat) (h : i < n) :
    (image_bytes fs off n).getD i 0 = fs.img_info.data (off + i) := by
  unfold image_bytes
  rw [List.getD_eq_getElem?_getD, List.getElem?_map, List.getElem?_range h]
  rfl

theorem tsk_getu32_image_bytes (fs : TSK_FS_INFO) (n : Nat) (h : 4 ≤ n) :
    tsk_getu32 (image_bytes fs 0 n) = tsk_getu32 (image_bytes fs 0 4) := by
  unfold tsk_getu32
  rw [image_bytes_getD fs 0 n 0 (by omega), image_bytes_getD fs 0 n 1 (by omega),
    image_bytes_getD fs 0 n 2 (by omega), image_bytes_getD fs 0 n 3 (by omega),
    image_bytes_getD fs 0 4 0 (by omega), image_bytes_getD fs 0 4 1 (by omega),
    image_bytes_getD fs 0 4 2 (by omega), image_bytes_getD fs 0 4 3 (by omega)]

/-- The header loader consults the hive only through its image. -/
theorem reg_load_regf_congr (R : REGF_DECL) (REG_REGF_MAGIC : Nat) (fs1 fs2 : TSK_FS_INFO)
    (h : fs1.img_info = fs2.img_info) :
    reg_load_regf R REG_REGF_MAGIC fs1 = reg_load_regf R REG_REGF_MAGIC fs2 := by
  unfold reg_load_regf tsk_fs_read image_bytes
  rw [h]

/-- The two outcomes of the header loader in terms of the image. -/
theorem reg_load_regf_eq (R : REGF_DECL) (REG_REGF_MAGIC : Nat) (fs_info : TSK_FS_INFO) :
    (reg_load_regf R REG_REGF_MAGIC fs_info).ret =
      if R.sizeof ≤ fs_info.img_info.size then
        if tsk_getu32 ((image_bytes fs_info 0 R.sizeof).drop R.magic) ≠ REG_REGF_MAGIC then
          TSK_ERR TSK_ERR_FS_INODE_COR
        else TSK_OK (image_bytes fs_info 0 R.sizeof)
      else TSK_ERR TSK_ERR_FS_READ := by
  unfold reg_load_regf tsk_fs_read
  by_cases hs : R.sizeof ≤ fs_info.img_info.size
  · rw [if_pos (by omega), if_pos hs]
    simp only
    split <;> rfl
  · rw [if_neg (by omega), if_neg hs]

/-- C12 (scenario A), for a header structure whose `magic` field is its first four
bytes: when the first four bytes of the image, read as a little-endian 32-bit value,
differ from `REG_REGF_MAGIC`, `reg_load_regf` returns an error and `regfs_open` returns
no hive; when the whole header is readable and the magic matches, `reg_load_regf`
succeeds with the header bytes and `regfs_open` returns a hive over the image. -/
theorem reg_load_regf_magic (HBIN_SIZE FIRST_HBIN_OFFSET REG_REGF_MAGIC : Nat) (R : REGF_DECL)
    (fs_info : TSK_FS_INFO) (hm : R.magic = 0) (hs : 4 ≤ R.sizeof) :
    (tsk_getu32 (image_bytes fs_info 0 4) ≠ REG_REGF_MAGIC →
      (∃ e, (reg_load_regf R REG_REGF_MAGIC fs_info).ret = TSK_ERR e) ∧
      ∀ ftype_isreg, regfs_open HBIN_SIZE FIRST_HBIN_OFFSET REG_REGF_MAGIC R fs_info.img_info
        ftype_isreg = none) ∧
    (R.sizeof ≤ fs_info.img_info.size → tsk_getu32 (image_bytes fs_info 0 4) = REG_REGF_MAGIC →
      (reg_load_regf R REG_REGF_MAGIC fs_info).ret = TSK_OK (image_bytes fs_info 0 R.sizeof) ∧
      ∃ fs, regfs_open HBIN_SIZE FIRST_HBIN_OFFSET REG_REGF_MAGIC R fs_info.img_info true =
        some fs ∧ fs.img_info = fs_info.img_info) := by
  have hmagic : tsk_getu32 ((image_bytes fs_info 0 R.sizeof).drop R.magic) =
      tsk_getu32 (image_bytes fs_info 0 4) := by
    rw [hm, List.drop_zero, tsk_getu32_image_bytes fs_info R.sizeof hs]
  have hcongr : reg_load_regf R REG_REGF_MAGIC ⟨0, 0, fs_info.img_info⟩ =
      reg_load_regf R REG_REGF_MAGIC fs_info :=
    reg_load_regf_congr R REG_REGF_MAGIC _ _ rfl
  constructor
  · intro hne
    have herr : ∃ e, (reg_load_regf R REG_REGF_MAGIC fs_info).ret = TSK_ERR e := by
      rw [reg_load_regf_eq, hmagic]
      by_cases hsz : R.sizeof ≤ fs_info.img_info.size
      · rw [if_pos hsz, if_pos hne]
        exact ⟨_, rfl⟩
      · rw [if_neg hsz]
        exact ⟨_, rfl⟩
    refine ⟨herr, fun ftype_isreg => ?_⟩
    obtain ⟨e, he⟩ := herr
    unfold regfs_open
    split
    · rfl
    · rw [hcongr, he]
  · intro hsz heq
    have hok : (reg_load_regf R REG_REGF_MAGIC fs_info).ret =
        TSK_OK (image_bytes fs_info 0 R.sizeof) := by
      rw [reg_load_regf_eq, hmagic, if_pos hsz, if_neg (by simp [heq])]
    refine ⟨hok, ?_⟩
    unfold regfs_open
    rw [if_neg (by simp), hcongr, hok]
    exact ⟨_, rfl, rfl⟩

set_option maxRecDepth 100000 in
/-- Scenario A on concrete images: the header of `hdr_img` starts with "regf", so it
opens with the magic 0x66676572 ("regf" read little-endian), and it does not open when
the magic expected is another value. -/
theorem reg_load_regf_magic_witness :
    (∀ ftype_isreg, regfs_open 4096 4096 0x66676573 regf_decl (hdr_img 0x1000) ftype_isreg =
      none) ∧
    ∃ fs, regfs_open 4096 4096 0x66676572 regf_decl (hdr_img 0x1000) true = some fs ∧
      fs.img_info = hdr_img 0x1000 :=
  ⟨((reg_load_regf_magic 4096 4096 0x66676573 regf_decl ⟨0, 0, hdr_img 0x1000⟩ rfl
      (by decide)).1 (by decide)).2,
    ((reg_load_regf_magic 4096 4096 0x66676572 regf_decl ⟨0, 0, hdr_img 0x1000⟩ rfl
      (by decide)).2 (by decide) (by decide)).2⟩

/-- C13, as amended: a hive returned by `regfs_open` has `first_block` equal to
`FIRST_HBIN_OFFSET + 0x20` (the first cell, behind the 0x20-byte header of the first
bin), and `last_block` equal to the header field `last_hbin_offset` plus `HBIN_SIZE`
whenever that sum is below `2 ^ 32`. -/
theorem regfs_open_bounds (HBIN_SIZE FIRST_HBIN_OFFSET REG_REGF_MAGIC : Nat) (R : REGF_DECL)
    (img_info : TSK_IMG_INFO) (ftype_isreg : Bool) (fs : TSK_FS_INFO)
    (h : regfs_open HBIN_SIZE FIRST_HBIN_OFFSET REG_REGF_MAGIC R img_info ftype_isreg = some fs) :
    fs.img_info = img_info ∧ fs.first_block = FIRST_HBIN_OFFSET + 0x20 ∧
      (tsk_getu32 ((image_bytes fs 0 R.sizeof).drop R.last_hbin_offset) + HBIN_SIZE < 2 ^ 32 →
        fs.last_block =
          tsk_getu32 ((image_bytes fs 0 R.sizeof).drop R.last_hbin_offset) + HBIN_SIZE) := by
  unfold regfs_open at h
  by_cases ht : ftype_isreg = false
  · rw [if_pos ht] at h
    cases h
  · rw [if_neg ht] at h
    have hret := reg_load_regf_eq R REG_REGF_MAGIC ⟨0, 0, img_info⟩
    cases hl : (reg_load_regf R REG_REGF_MAGIC ⟨0, 0, img_info⟩).ret with
    | TSK_ERR e =>
      rw [hl] at h
      cases h
    | TSK_OK regf =>
      rw [hl] at h
      simp only [Option.some.injEq] at h
      rw [hl] at hret
      have hregf : regf = image_bytes ⟨0, 0, img_info⟩ 0 R.sizeof := by
        by_cases hsz : R.sizeof ≤ img_info.size
        · rw [if_pos hsz] at hret
          split at hret
          · cases hret
          · exact TSK_OK.inj hret
        · rw [if_neg hsz] at hret
          cases hret
      subst h
      refine ⟨rfl, rfl, fun hlt => ?_⟩
      have hb : image_bytes (⟨FIRST_HBIN_OFFSET + 0x20,
          u32 (tsk_getu32 (regf.drop R.last_hbin_offset) + HBIN_SIZE), img_info⟩ : TSK_FS_INFO)
          0 R.sizeof = regf := by
        rw [hregf]
        rfl
      rw [hb] at hlt ⊢
      exact Nat.mod_eq_of_lt hlt

set_option maxRecDepth 100000 in
/-- C13 as stated fails on the header of `hdr_img 0xFFFFF000` with `HBIN_SIZE` =
`FIRST_HBIN_OFFSET` = 4096: the field `last_hbin_offset` holds 0xFFFFF000, whose sum with
the bin size is `2 ^ 32`, and the hive is opened with `last_block` = 0; its `first_block`
is 0x1020, which is 0x20 behind the start 0x1000 of the first bin. -/
theorem regfs_open_bounds_counterexample :
    (regfs_open 4096 4096 0x66676572 regf_decl (hdr_img 0xFFFFF000) true).map
        (fun fs => (fs.first_block, fs.last_block)) = some (0x1020, 0) ∧
      tsk_getu32 ((image_bytes ⟨0, 0, hdr_img 0xFFFFF000⟩ 0 regf_decl.sizeof).drop
        regf_decl.last_hbin_offset) + 4096 = 2 ^ 32 ∧
      0x1020 - 0x1020 % 4096 = 4096 := by
  decide

set_option maxRecDepth 100000 in
/-- The bounds of C13 on a concrete header: with the last-bin offset 0x1000 the hive is
opened with `first_block` = 0x1020 = 4096 + 0x20 and `last_block` = 0x2000 =
0x1000 + 4096. -/
theorem regfs_open_bounds_witness :
    regfs_open 4096 4096 0x66676572 regf_decl (nk_img [] []) true =
        some ⟨0x1020, 0x2000, nk_img [] []⟩ ∧
      (⟨0x1020, 0x2000, nk_img [] []⟩ : TSK_FS_INFO).first_block = 4096 + 0x20 ∧
      (⟨0x1020, 0x2000, nk_img [] []⟩ : TSK_FS_INFO).last_block =
        tsk_getu32 ((image_bytes ⟨0x1020, 0x2000, nk_img [] []⟩ 0 regf_decl.sizeof).drop
          regf_decl.last_hbin_offset) + 4096 :=
  have h : regfs_open 4096 4096 0x66676572 regf_decl (nk_img [] []) true =
      some ⟨0x1020, 0x2000, nk_img [] []⟩ := by
    unfold regfs_open
    rw [if_neg (by decide)]
    have hl : (reg_load_regf regf_decl 0x66676572 ⟨0, 0, nk_img [] []⟩).ret =
        TSK_OK (image_bytes ⟨0, 0, nk_img [] []⟩ 0 0x200) := by decide
    rw [hl]
    have hv : u32 (tsk_getu32 ((image_bytes ⟨0, 0, nk_img [] []⟩ 0 0x200).drop
        regf_decl.last_hbin_offset) + 4096) = 0x2000 := by decide
    simp only [hv]
  have hb := regfs_open_bounds 4096 4096 0x66676572 regf_decl (nk_img [] []) true _ h
  ⟨h, hb.2.1, hb.2.2 (by decide)⟩

/-! ## The key decoder -/

theorem tsk_getu16_lt (buf : List uint8_t) : tsk_getu16 buf < 2 ^ 16 := by
  unfold tsk_getu16
  have h0 := (buf.getD 0 0).isLt
  have h1 := (buf.getD 1 0).isLt
  omega

theorem to_u32_gets32 (buf : List uint8_t) : to_u32 (tsk_gets32 buf) = tsk_getu32 buf := by
  have hlt := tsk_getu32_lt buf
  unfold to_u32 tsk_gets32
  split <;> omega

/-- The field `classname_offset` as the decoder uses it is the raw 32-bit field. -/
theorem reg_nk_classname_offset_eq (D : REGFS_CELL_NK_DECL) (nk : Nat → uint8_t) :
    reg_nk_classname_offset D nk = tsk_getu32 (reg_nk_field nk D.classname_offset 4) :=
  to_u32_gets32 _

/-- The string codec returns `TSK_OK` on every path. -/
theorem regfs_utf16to8_ok (conv : TSK_UTF16toUTF8_FN) (utf16 : List uint8_t)
    (utf16_length : Nat) (utf8 : List uint8_t) (utf8_length : Nat) :
    ∃ asc, regfs_utf16to8 conv utf16 utf16_length utf8 utf8_length = TSK_OK asc := by
  unfold regfs_utf16to8
  simp only
  split
  · exact ⟨_, rfl⟩
  · split <;> exact ⟨_, rfl⟩

section KeyName

variable (FIRST_HBIN_OFFSET : Nat) (D : REGFS_CELL_NK_DECL) (nk : Nat → uint8_t)
  (s : List uint8_t) (sec_skew : Int) (reads : List (Nat × Nat)) (out : List ISTAT_LINE)

theorem reg_istat_nk_name_long (h : 512 < reg_nk_name_length D nk) :
    reg_istat_nk_name FIRST_HBIN_OFFSET D nk s sec_skew reads out =
      ⟨TSK_ERR TSK_ERR_FS_INODE_COR, reads, out⟩ := by
  unfold reg_istat_nk_name
  simp only [gt_iff_lt]
  rw [if_pos h]

theorem reg_istat_nk_name_ok (h : reg_nk_name_length D nk ≤ 512) :
    (reg_istat_nk_name FIRST_HBIN_OFFSET D nk s sec_skew reads out).ret = TSK_OK () ∧
      ∃ kn, key_name kn ∈ (reg_istat_nk_name FIRST_HBIN_OFFSET D nk s sec_skew reads out).out := by
  unfold reg_istat_nk_name
  simp only [gt_iff_lt]
  rw [if_neg (by omega)]
  exact ⟨rfl,
    c_string (strncpy s (reg_nk_field nk D.name (reg_nk_name_length D nk))
      (reg_nk_name_length D nk)), by simp⟩

theorem reg_istat_nk_name_reads :
    (reg_istat_nk_name FIRST_HBIN_OFFSET D nk s sec_skew reads out).reads = reads := by
  unfold reg_istat_nk_name
  simp only [gt_iff_lt]
  split <;> rfl

/-- The tail of the decoder returns `TSK_OK` or the corrupt-cell error. -/
theorem reg_istat_nk_name_ret :
    (reg_istat_nk_name FIRST_HBIN_OFFSET D nk s sec_skew reads out).ret = TSK_OK () ∨
      (reg_istat_nk_name FIRST_HBIN_OFFSET D nk s sec_skew reads out).ret =
        TSK_ERR TSK_ERR_FS_INODE_COR := by
  unfold reg_istat_nk_name
  simp only [gt_iff_lt]
  split
  · exact Or.inr rfl
  · exact Or.inl rfl

/-- The tail of the decoder keeps the lines printed before it and adds no class-name
line. -/
theorem reg_istat_nk_name_out :
    (∃ rest, (reg_istat_nk_name FIRST_HBIN_OFFSET D nk s sec_skew reads out).out = out ++ rest) ∧
    (∀ asc, class_name asc ∈ (reg_istat_nk_name FIRST_HBIN_OFFSET D nk s sec_skew reads out).out →
      class_name asc ∈ out) := by
  unfold reg_istat_nk_name
  simp only [gt_iff_lt]
  split
  · exact ⟨⟨[], by simp⟩, fun asc h => h⟩
  · refine ⟨⟨_, by simp only [List.append_assoc]; rfl⟩, fun asc h => ?_⟩
    simp only [List.mem_append, List.mem_cons, List.mem_singleton, List.not_mem_nil,
      or_false] at h
    rcases h with ((h | h) | h) | h
    · exact h
    · rcases h with h | h <;> cases h
    · split at h
      · simp at h
      · simp at h
    · rcases h with h | h <;> cases h

end KeyName

section KeyDecoder

variable (HBIN_SIZE FIRST_HBIN_OFFSET : Nat) (D : REGFS_CELL_NK_DECL)
  (conv : TSK_UTF16toUTF8_FN) (auto : REG_ISTAT_AUTO) (fs : TSK_FS_INFO) (cell : REGFS_CELL)
  (sec_skew : Int) (bytes : List uint8_t)

/-- The decoder on a cell whose class-name offset is the sentinel. -/
theorem reg_istat_nk_sentinel (hlen : cell.length ≤ HBIN_SIZE)
    (hread : tsk_fs_read fs cell.inum cell.length = some bytes)
    (hs : reg_nk_classname_offset D (reg_nk_view auto.buf bytes) = 0xFFFFFFFF) :
    reg_istat_nk HBIN_SIZE FIRST_HBIN_OFFSET D conv auto fs cell sec_skew =
      reg_istat_nk_name FIRST_HBIN_OFFSET D (reg_nk_view auto.buf bytes) auto.s sec_skew
        [(cell.inum, cell.length)]
        [record_information, record_type TSK_REGFS_RECORD_TYPE_NK, class_name_none] := by
  unfold reg_istat_nk
  rw [if_neg (by omega), hread]
  simp only
  rw [if_pos hs]
  rfl

/-- The decoder on a cell whose class-name length exceeds 512. -/
theorem reg_istat_nk_classname_long (hlen : cell.length ≤ HBIN_SIZE)
    (hread : tsk_fs_read fs cell.inum cell.length = some bytes)
    (hs : reg_nk_classname_offset D (reg_nk_view auto.buf bytes) ≠ 0xFFFFFFFF)
    (hl : 512 < reg_nk_classname_length D (reg_nk_view auto.buf bytes)) :
    reg_istat_nk HBIN_SIZE FIRST_HBIN_OFFSET D conv auto fs cell sec_skew =
      ⟨TSK_ERR TSK_ERR_FS_INODE_COR, [(cell.inum, cell.length)],
        [record_information, record_type TSK_REGFS_RECORD_TYPE_NK]⟩ := by
  unfold reg_istat_nk
  rw [if_neg (by omega), hread]
  simp only [gt_iff_lt]
  rw [if_neg hs, if_pos hl]

/-- The decoder on a cell whose class-name read comes back short. -/
theorem reg_istat_nk_classname_short (hlen : cell.length ≤ HBIN_SIZE)
    (hread : tsk_fs_read fs cell.inum cell.length = some bytes)
    (hs : reg_nk_classname_offset D (reg_nk_view auto.buf bytes) ≠ 0xFFFFFFFF)
    (hl : reg_nk_classname_length D (reg_nk_view auto.buf bytes) ≤ 512)
    (hc : tsk_fs_read fs (reg_nk_classname_addr FIRST_HBIN_OFFSET D (reg_nk_view auto.buf bytes))
      (reg_nk_classname_length D (reg_nk_view auto.buf bytes)) = none) :
    reg_istat_nk HBIN_SIZE FIRST_HBIN_OFFSET D conv auto fs cell sec_skew =
      ⟨TSK_ERR TSK_ERR_FS_READ,
        [(cell.inum, cell.length),
          (reg_nk_classname_addr FIRST_HBIN_OFFSET D (reg_nk_view auto.buf bytes),
            reg_nk_classname_length D (reg_nk_view auto.buf bytes))],
        [record_information, record_type TSK_REGFS_RECORD_TYPE_NK]⟩ := by
  unfold reg_istat_nk
  rw [if_neg (by omega), hread]
  simp only [gt_iff_lt]
  rw [if_neg hs, if_neg (by omega), hc]

/-- The decoder on a cell whose class name is read: whatever the converter reports, the
class name converted so far is printed and the decoder goes on with the key name. -/
theorem reg_istat_nk_classname_read (classname : List uint8_t)
    (hlen : cell.length ≤ HBIN_SIZE)
    (hread : tsk_fs_read fs cell.inum cell.length = some bytes)
    (hs : reg_nk_classname_offset D (reg_nk_view auto.buf bytes) ≠ 0xFFFFFFFF)
    (hl : reg_nk_classname_length D (reg_nk_view auto.buf bytes) ≤ 512)
    (hc : tsk_fs_read fs (reg_nk_classname_addr FIRST_HBIN_OFFSET D (reg_nk_view auto.buf bytes))
      (reg_nk_classname_length D (reg_nk_view auto.buf bytes)) = some classname) :
    ∃ asc, regfs_utf16to8 conv
        (classname ++ auto.s.drop (reg_nk_classname_length D (reg_nk_view auto.buf bytes))) 512
        auto.asc 512 = TSK_OK asc ∧
      reg_istat_nk HBIN_SIZE FIRST_HBIN_OFFSET D conv auto fs cell sec_skew =
        reg_istat_nk_name FIRST_HBIN_OFFSET D (reg_nk_view auto.buf bytes)
          (classname ++ auto.s.drop (reg_nk_classname_length D (reg_nk_view auto.buf bytes)))
          sec_skew
          [(cell.inum, cell.length),
            (reg_nk_classname_addr FIRST_HBIN_OFFSET D (reg_nk_view auto.buf bytes),
              reg_nk_classname_length D (reg_nk_view auto.buf bytes))]
          [record_information, record_type TSK_REGFS_RECORD_TYPE_NK,
            class_name (c_string asc)] := by
  obtain ⟨asc, hasc⟩ := regfs_utf16to8_ok conv
    (classname ++ auto.s.drop (reg_nk_classname_length D (reg_nk_view auto.buf bytes))) 512
    auto.asc 512
  refine ⟨asc, hasc, ?_⟩
  unfold reg_istat_nk
  rw [if_neg (by omega), hread]
  simp only [gt_iff_lt]
  rw [if_neg hs, if_neg (by omega), hc]
  simp only [hasc]
  rfl

end KeyDecoder

/-- C14: on a Key cell whose bytes are read and whose class-name offset field is the
sentinel 0xFFFFFFFF, `reg_istat_nk` issues a single read of the image, the `cell.length`
bytes at the cell address; it prints the record heading, the record type and the line
"Class Name: None", and no line with a class name, whatever the other fields of the
cell (the class-name length among them) contain. -/
theorem reg_istat_nk_no_classname (HBIN_SIZE FIRST_HBIN_OFFSET : Nat) (D : REGFS_CELL_NK_DECL)
    (conv : TSK_UTF16toUTF8_FN) (auto : REG_ISTAT_AUTO) (fs : TSK_FS_INFO) (cell : REGFS_CELL)
    (sec_skew : Int) (bytes : List uint8_t) (hlen : cell.length ≤ HBIN_SIZE)
    (hread : tsk_fs_read fs cell.inum cell.length = some bytes)
    (hs : tsk_getu32 (reg_nk_field (reg_nk_view auto.buf bytes) D.classname_offset 4) =
      0xFFFFFFFF) :
    (reg_istat_nk HBIN_SIZE FIRST_HBIN_OFFSET D conv auto fs cell sec_skew).reads =
        [(cell.inum, cell.length)] ∧
      (∃ rest, (reg_istat_nk HBIN_SIZE FIRST_HBIN_OFFSET D conv auto fs cell sec_skew).out =
        [record_information, record_type TSK_REGFS_RECORD_TYPE_NK, class_name_none] ++ rest) ∧
      ∀ asc, class_name asc ∉
        (reg_istat_nk HBIN_SIZE FIRST_HBIN_OFFSET D conv auto fs cell sec_skew).out := by
  have hs1 : reg_nk_classname_offset D (reg_nk_view auto.buf bytes) = 0xFFFFFFFF := by
    rw [reg_nk_classname_offset_eq]
    exact hs
  rw [reg_istat_nk_sentinel HBIN_SIZE FIRST_HBIN_OFFSET D conv auto fs cell sec_skew bytes hlen
    hread hs1]
  refine ⟨reg_istat_nk_name_reads _ _ _ _ _ _ _, (reg_istat_nk_name_out _ _ _ _ _ _ _).1, ?_⟩
  intro asc h
  have h2 := (reg_istat_nk_name_out _ _ _ _ _ _ _).2 asc h
  simp at h2

set_option maxRecDepth 100000 in
/-- The sentinel case of C14 on a concrete key cell (class-name offset 0xFFFFFFFF,
class-name length field 0x7777): one read, of the 0x60 bytes of the cell. -/
theorem reg_istat_nk_no_classname_witness :
    (reg_istat_nk 4096 4096 nk_decl tsk_UTF16toUTF8 (auto_fill 0xAA)
        (nk_fs (nk_cell (2 ^ 32 - 0x60) 0xFFFFFFFF 0x7777 4 [0x52, 0x4F, 0x4F, 0x54]) [])
        ⟨0x1020, true, 0x60, TSK_REGFS_RECORD_TYPE_NK⟩ 0).reads = [(0x1020, 0x60)] :=
  (reg_istat_nk_no_classname 4096 4096 nk_decl tsk_UTF16toUTF8 (auto_fill 0xAA)
    (nk_fs (nk_cell (2 ^ 32 - 0x60) 0xFFFFFFFF 0x7777 4 [0x52, 0x4F, 0x4F, 0x54]) [])
    ⟨0x1020, true, 0x60, TSK_REGFS_RECORD_TYPE_NK⟩ 0
    (image_bytes (nk_fs (nk_cell (2 ^ 32 - 0x60) 0xFFFFFFFF 0x7777 4 [0x52, 0x4F, 0x4F, 0x54])
      []) 0x1020 0x60)
    (by decide) (by decide) (by decide)).1

/-- C15, as amended: on a Key cell whose bytes are read and whose declared name length
exceeds 512, `reg_istat_nk` fails and prints no key name; the error is the corrupt-cell
error, except that a short read of the class name, which is handled first, is returned
as the read error.  A name length of 512 or less is not rejected: when the class-name
step before it has passed, the decoder prints the key name and returns `TSK_OK`. -/
theorem reg_istat_nk_name_length (HBIN_SIZE FIRST_HBIN_OFFSET : Nat) (D : REGFS_CELL_NK_DECL)
    (conv : TSK_UTF16toUTF8_FN) (auto : REG_ISTAT_AUTO) (fs : TSK_FS_INFO) (cell : REGFS_CELL)
    (sec_skew : Int) (bytes : List uint8_t) (hlen : cell.length ≤ HBIN_SIZE)
    (hread : tsk_fs_read fs cell.inum cell.length = some bytes) :
    (512 < reg_nk_name_length D (reg_nk_view auto.buf bytes) →
      (∀ kn, key_name kn ∉
        (reg_istat_nk HBIN_SIZE FIRST_HBIN_OFFSET D conv auto fs cell sec_skew).out) ∧
      ((reg_nk_classname_offset D (reg_nk_view auto.buf bytes) ≠ 0xFFFFFFFF ∧
          reg_nk_classname_length D (reg_nk_view auto.buf bytes) ≤ 512 ∧
          tsk_fs_read fs
            (reg_nk_classname_addr FIRST_HBIN_OFFSET D (reg_nk_view auto.buf bytes))
            (reg_nk_classname_length D (reg_nk_view auto.buf bytes)) = none) →
        (reg_istat_nk HBIN_SIZE FIRST_HBIN_OFFSET D conv auto fs cell sec_skew).ret =
          TSK_ERR TSK_ERR_FS_READ) ∧
      (¬ (reg_nk_classname_offset D (reg_nk_view auto.buf bytes) ≠ 0xFFFFFFFF ∧
          reg_nk_classname_length D (reg_nk_view auto.buf bytes) ≤ 512 ∧
          tsk_fs_read fs
            (reg_nk_classname_addr FIRST_HBIN_OFFSET D (reg_nk_view auto.buf bytes))
            (reg_nk_classname_length D (reg_nk_view auto.buf bytes)) = none) →
        (reg_istat_nk HBIN_SIZE FIRST_HBIN_OFFSET D conv auto fs cell sec_skew).ret =
          TSK_ERR TSK_ERR_FS_INODE_COR)) ∧
    (reg_nk_name_length D (reg_nk_view auto.buf bytes) ≤ 512 →
      (reg_nk_classname_offset D (reg_nk_view auto.buf bytes) = 0xFFFFFFFF ∨
        (reg_nk_classname_length D (reg_nk_view auto.buf bytes) ≤ 512 ∧
          tsk_fs_read fs
            (reg_nk_classname_addr FIRST_HBIN_OFFSET D (reg_nk_view auto.buf bytes))
            (reg_nk_classname_length D (reg_nk_view auto.buf bytes)) ≠ none)) →
      (reg_istat_nk HBIN_SIZE FIRST_HBIN_OFFSET D conv auto fs cell sec_skew).ret = TSK_OK () ∧
      ∃ kn, key_name kn ∈
        (reg_istat_nk HBIN_SIZE FIRST_HBIN_OFFSET D conv auto fs cell sec_skew).out) := by
  by_cases hs : reg_nk_classname_offset D (reg_nk_view auto.buf bytes) = 0xFFFFFFFF
  · rw [reg_istat_nk_sentinel HBIN_SIZE FIRST_HBIN_OFFSET D conv auto fs cell sec_skew bytes hlen
      hread hs]
    constructor
    · intro hn
      rw [reg_istat_nk_name_long _ _ _ _ _ _ _ hn]
      exact ⟨fun kn h => by simp at h, fun h => absurd hs h.1, fun _ => rfl⟩
    · intro hn _
      exact reg_istat_nk_name_ok _ _ _ _ _ _ _ hn
  · by_cases hl : reg_nk_classname_length D (reg_nk_view auto.buf bytes) ≤ 512
    · cases hc : tsk_fs_read fs
          (reg_nk_classname_addr FIRST_HBIN_OFFSET D (reg_nk_view auto.buf bytes))
          (reg_nk_classname_length D (reg_nk_view auto.buf bytes)) with
      | none =>
        rw [reg_istat_nk_classname_short HBIN_SIZE FIRST_HBIN_OFFSET D conv auto fs cell sec_skew
          bytes hlen hread hs hl hc]
        constructor
        · intro _
          exact ⟨fun kn h => by simp at h, fun _ => rfl, fun h => absurd ⟨hs, hl, rfl⟩ h⟩
        · intro _ h
          rcases h with h | h
          · exact absurd h hs
          · exact absurd rfl h.2
      | some classname =>
        obtain ⟨asc, _, heq⟩ := reg_istat_nk_classname_read HBIN_SIZE FIRST_HBIN_OFFSET D conv
          auto fs cell sec_skew bytes classname hlen hread hs hl hc
        rw [heq]
        constructor
        · intro hn
          rw [reg_istat_nk_name_long _ _ _ _ _ _ _ hn]
          exact ⟨fun kn h => by simp at h, fun h => by simp at h, fun _ => rfl⟩
        · intro hn _
          exact reg_istat_nk_name_ok _ _ _ _ _ _ _ hn
    · rw [reg_istat_nk_classname_long HBIN_SIZE FIRST_HBIN_OFFSET D conv auto fs cell sec_skew
        bytes hlen hread hs (by omega)]
      constructor
      · intro _
        exact ⟨fun kn h => by simp at h, fun h => absurd h.2.1 hl, fun _ => rfl⟩
      · intro _ h
        rcases h with h | h
        · exact absurd h hs
        · exact absurd h.1 hl

set_option maxRecDepth 100000 in
/-- C15 as stated fails on a key cell that declares the name length 600 and whose class
name (offset 0x2000, length 4) lies behind the end of the 0x2000-byte image: the decoder
fails with the read error, not with the corrupt-cell error. -/
theorem reg_istat_nk_name_length_counterexample :
    reg_nk_name_length nk_decl (reg_nk_view (auto_fill 0xAA).buf
        (image_bytes (nk_fs (nk_cell (2 ^ 32 - 0x60) 0x2000 4 600 []) []) 0x1020 0x60)) = 600 ∧
      (reg_istat_nk 4096 4096 nk_decl tsk_UTF16toUTF8 (auto_fill 0xAA)
        (nk_fs (nk_cell (2 ^ 32 - 0x60) 0x2000 4 600 []) [])
        ⟨0x1020, true, 0x60, TSK_REGFS_RECORD_TYPE_NK⟩ 0).ret = TSK_ERR TSK_ERR_FS_READ := by
  decide

set_option maxRecDepth 100000 in
/-- The name-length check of C15 on a concrete key cell without class name that declares
the name length 600: the decoder fails with the corrupt-cell error. -/
theorem reg_istat_nk_name_length_witness :
    (reg_istat_nk 4096 4096 nk_decl tsk_UTF16toUTF8 (auto_fill 0xAA)
        (nk_fs (nk_cell (2 ^ 32 - 0x60) 0xFFFFFFFF 0 600 []) [])
        ⟨0x1020, true, 0x60, TSK_REGFS_RECORD_TYPE_NK⟩ 0).ret =
      TSK_ERR TSK_ERR_FS_INODE_COR :=
  ((reg_istat_nk_name_length 4096 4096 nk_decl tsk_UTF16toUTF8 (auto_fill 0xAA)
    (nk_fs (nk_cell (2 ^ 32 - 0x60) 0xFFFFFFFF 0 600 []) [])
    ⟨0x1020, true, 0x60, TSK_REGFS_RECORD_TYPE_NK⟩ 0
    (image_bytes (nk_fs (nk_cell (2 ^ 32 - 0x60) 0xFFFFFFFF 0 600 []) []) 0x1020 0x60)
    (by decide) (by decide)).1 (by decide)).2.2 (by decide)

/-- C16, as amended: on a Key cell whose bytes are read, whose class-name offset is not
the sentinel and whose class-name length is at most 512, `reg_istat_nk` reads the class
name (the second and last read it issues) at `FIRST_HBIN_OFFSET + classname_offset + 4`
when that sum is below `2 ^ 32`; on a hive whose `first_block` is
`FIRST_HBIN_OFFSET + 0x20`, as `regfs_open` sets it, this address is 0x20 below
`first_block + classname_offset + 4`. -/
theorem reg_istat_nk_classname_address (HBIN_SIZE FIRST_HBIN_OFFSET : Nat)
    (D : REGFS_CELL_NK_DECL) (conv : TSK_UTF16toUTF8_FN) (auto : REG_ISTAT_AUTO)
    (fs : TSK_FS_INFO) (cell : REGFS_CELL) (sec_skew : Int) (bytes : List uint8_t)
    (hlen : cell.length ≤ HBIN_SIZE)
    (hread : tsk_fs_read fs cell.inum cell.length = some bytes)
    (hs : tsk_getu32 (reg_nk_field (reg_nk_view auto.buf bytes) D.classname_offset 4) ≠
      0xFFFFFFFF)
    (hl : reg_nk_classname_length D (reg_nk_view auto.buf bytes) ≤ 512)
    (hsum : FIRST_HBIN_OFFSET +
      tsk_getu32 (reg_nk_field (reg_nk_view auto.buf bytes) D.classname_offset 4) + 4 < 2 ^ 32) :
    (reg_istat_nk HBIN_SIZE FIRST_HBIN_OFFSET D conv auto fs cell sec_skew).reads =
        [(cell.inum, cell.length),
          (FIRST_HBIN_OFFSET +
              tsk_getu32 (reg_nk_field (reg_nk_view auto.buf bytes) D.classname_offset 4) + 4,
            reg_nk_classname_length D (reg_nk_view auto.buf bytes))] ∧
      (fs.first_block = FIRST_HBIN_OFFSET + 0x20 →
        FIRST_HBIN_OFFSET +
            tsk_getu32 (reg_nk_field (reg_nk_view auto.buf bytes) D.classname_offset 4) + 4
            + 0x20 =
          fs.first_block +
            tsk_getu32 (reg_nk_field (reg_nk_view auto.buf bytes) D.classname_offset 4) + 4) := by
  have hs1 : reg_nk_classname_offset D (reg_nk_view auto.buf bytes) ≠ 0xFFFFFFFF := by
    rw [reg_nk_classname_offset_eq]
    exact hs
  have haddr : reg_nk_classname_addr FIRST_HBIN_OFFSET D (reg_nk_view auto.buf bytes) =
      FIRST_HBIN_OFFSET +
        tsk_getu32 (reg_nk_field (reg_nk_view auto.buf bytes) D.classname_offset 4) + 4 := by
    unfold reg_nk_classname_addr
    rw [reg_nk_classname_offset_eq]
    exact Nat.mod_eq_of_lt hsum
  constructor
  · cases hc : tsk_fs_read fs
        (reg_nk_classname_addr FIRST_HBIN_OFFSET D (reg_nk_view auto.buf bytes))
        (reg_nk_classname_length D (reg_nk_view auto.buf bytes)) with
    | none =>
      rw [reg_istat_nk_classname_short HBIN_SIZE FIRST_HBIN_OFFSET D conv auto fs cell sec_skew
        bytes hlen hread hs1 hl hc, haddr]
    | some classname =>
      obtain ⟨asc, _, heq⟩ := reg_istat_nk_classname_read HBIN_SIZE FIRST_HBIN_OFFSET D conv
        auto fs cell sec_skew bytes classname hlen hread hs1 hl hc
      rw [heq, reg_istat_nk_name_reads, haddr]
  · intro hf
    omega

set_option maxRecDepth 100000 in
/-- C16 as stated fails on a hive opened with `FIRST_HBIN_OFFSET` = 4096, whose
`first_block` is 0x1020: for the key cell at 0x1020 with class-name offset 0x80 and
length 4 the class name is read at 0x1084, not at
`first_block + classname_offset + 4` = 0x10A4. -/
theorem reg_istat_nk_classname_address_counterexample :
    (regfs_open 4096 4096 0x66676572 regf_decl
        (nk_img (nk_cell (2 ^ 32 - 0x60) 0x80 4 4 [0x52, 0x4F, 0x4F, 0x54])
          [0x41, 0, 0x42, 0]) true).map
        (fun fs => (fs.first_block, fs.last_block)) = some (0x1020, 0x2000) ∧
      (reg_istat_nk 4096 4096 nk_decl tsk_UTF16toUTF8 (auto_fill 0xAA)
        (nk_fs (nk_cell (2 ^ 32 - 0x60) 0x80 4 4 [0x52, 0x4F, 0x4F, 0x54]) [0x41, 0, 0x42, 0])
        ⟨0x1020, true, 0x60, TSK_REGFS_RECORD_TYPE_NK⟩ 0).reads =
        [(0x1020, 0x60), (0x1084, 4)] ∧
      (nk_fs (nk_cell (2 ^ 32 - 0x60) 0x80 4 4 [0x52, 0x4F, 0x4F, 0x54])
        [0x41, 0, 0x42, 0]).first_block + 0x80 + 4 = 0x10A4 := by
  decide

set_option maxRecDepth 100000 in
/-- The class-name address of C16 on the same key cell: the second read is at
4096 + 0x80 + 4. -/
theorem reg_istat_nk_classname_address_witness :
    (reg_istat_nk 4096 4096 nk_decl tsk_UTF16toUTF8 (auto_fill 0xAA)
        (nk_fs (nk_cell (2 ^ 32 - 0x60) 0x80 4 4 [0x52, 0x4F, 0x4F, 0x54]) [0x41, 0, 0x42, 0])
        ⟨0x1020, true, 0x60, TSK_REGFS_RECORD_TYPE_NK⟩ 0).reads =
      [(0x1020, 0x60),
        (4096 + tsk_getu32 (reg_nk_field (reg_nk_view (auto_fill 0xAA).buf
          (image_bytes (nk_fs (nk_cell (2 ^ 32 - 0x60) 0x80 4 4 [0x52, 0x4F, 0x4F, 0x54])
            [0x41, 0, 0x42, 0]) 0x1020 0x60)) nk_decl.classname_offset 4) + 4,
          reg_nk_classname_length nk_decl (reg_nk_view (auto_fill 0xAA).buf
            (image_bytes (nk_fs (nk_cell (2 ^ 32 - 0x60) 0x80 4 4 [0x52, 0x4F, 0x4F, 0x54])
              [0x41, 0, 0x42, 0]) 0x1020 0x60)))] :=
  (reg_istat_nk_classname_address 4096 4096 nk_decl tsk_UTF16toUTF8 (auto_fill 0xAA)
    (nk_fs (nk_cell (2 ^ 32 - 0x60) 0x80 4 4 [0x52, 0x4F, 0x4F, 0x54]) [0x41, 0, 0x42, 0])
    ⟨0x1020, true, 0x60, TSK_REGFS_RECORD_TYPE_NK⟩ 0
    (image_bytes (nk_fs (nk_cell (2 ^ 32 - 0x60) 0x80 4 4 [0x52, 0x4F, 0x4F, 0x54])
      [0x41, 0, 0x42, 0]) 0x1020 0x60)
    (by decide) (by decide) (by decide) (by decide) (by decide)).1

/-- C17 (scenario D): on a Key cell whose bytes are read, whose class-name offset is not
the sentinel and whose class-name read (`classname_length` bytes, at most 512, at the
translated address) comes back short, `reg_istat_nk` fails with the read error; it has
printed the record heading and the record type only: no key name, root flag or parent. -/
theorem reg_istat_nk_classname_short_read (HBIN_SIZE FIRST_HBIN_OFFSET : Nat)
    (D : REGFS_CELL_NK_DECL) (conv : TSK_UTF16toUTF8_FN) (auto : REG_ISTAT_AUTO)
    (fs : TSK_FS_INFO) (cell : REGFS_CELL) (sec_skew : Int) (bytes : List uint8_t)
    (hlen : cell.length ≤ HBIN_SIZE)
    (hread : tsk_fs_read fs cell.inum cell.length = some bytes)
    (hs : tsk_getu32 (reg_nk_field (reg_nk_view auto.buf bytes) D.classname_offset 4) ≠
      0xFFFFFFFF)
    (hl : reg_nk_classname_length D (reg_nk_view auto.buf bytes) ≤ 512)
    (hc : tsk_fs_read fs (reg_nk_classname_addr FIRST_HBIN_OFFSET D (reg_nk_view auto.buf bytes))
      (reg_nk_classname_length D (reg_nk_view auto.buf bytes)) = none) :
    (reg_istat_nk HBIN_SIZE FIRST_HBIN_OFFSET D conv auto fs cell sec_skew).ret =
        TSK_ERR TSK_ERR_FS_READ ∧
      (reg_istat_nk HBIN_SIZE FIRST_HBIN_OFFSET D conv auto fs cell sec_skew).out =
        [record_information, record_type TSK_REGFS_RECORD_TYPE_NK] ∧
      (∀ kn, key_name kn ∉
        (reg_istat_nk HBIN_SIZE FIRST_HBIN_OFFSET D conv auto fs cell sec_skew).out) ∧
      (∀ yes, root_record yes ∉
        (reg_istat_nk HBIN_SIZE FIRST_HBIN_OFFSET D conv auto fs cell sec_skew).out) ∧
      (∀ inum, parent_record inum ∉
        (reg_istat_nk HBIN_SIZE FIRST_HBIN_OFFSET D conv auto fs cell sec_skew).out) := by
  have hs1 : reg_nk_classname_offset D (reg_nk_view auto.buf bytes) ≠ 0xFFFFFFFF := by
    rw [reg_nk_classname_offset_eq]
    exact hs
  rw [reg_istat_nk_classname_short HBIN_SIZE FIRST_HBIN_OFFSET D conv auto fs cell sec_skew
    bytes hlen hread hs1 hl hc]
  exact ⟨rfl, rfl, fun kn h => by simp at h, fun yes h => by simp at h,
    fun inum h => by simp at h⟩

set_option maxRecDepth 100000 in
/-- Scenario D on a concrete key cell: the class name (offset 0x2000, length 4) points
to 0x3004, behind the end of the 0x2000-byte image, and the decoder fails with the read
error. -/
theorem reg_istat_nk_classname_short_read_witness :
    reg_nk_classname_addr 4096 nk_decl (reg_nk_view (auto_fill 0xAA).buf
        (image_bytes (nk_fs (nk_cell (2 ^ 32 - 0x60) 0x2000 4 4 [0x52, 0x4F, 0x4F, 0x54]) [])
          0x1020 0x60)) = 0x3004 ∧
      (reg_istat_nk 4096 4096 nk_decl tsk_UTF16toUTF8 (auto_fill 0xAA)
        (nk_fs (nk_cell (2 ^ 32 - 0x60) 0x2000 4 4 [0x52, 0x4F, 0x4F, 0x54]) [])
        ⟨0x1020, true, 0x60, TSK_REGFS_RECORD_TYPE_NK⟩ 0).ret = TSK_ERR TSK_ERR_FS_READ :=
  ⟨by decide,
    (reg_istat_nk_classname_short_read 4096 4096 nk_decl tsk_UTF16toUTF8 (auto_fill 0xAA)
      (nk_fs (nk_cell (2 ^ 32 - 0x60) 0x2000 4 4 [0x52, 0x4F, 0x4F, 0x54]) [])
      ⟨0x1020, true, 0x60, TSK_REGFS_RECORD_TYPE_NK⟩ 0
      (image_bytes (nk_fs (nk_cell (2 ^ 32 - 0x60) 0x2000 4 4 [0x52, 0x4F, 0x4F, 0x54]) [])
        0x1020 0x60)
      (by decide) (by decide) (by decide) (by decide) (by decide)).1⟩

/-! ## The string codec -/

theorem takeWhile_append_stop {α : Type} (p : α → Bool) (l r : List α) (x : α)
    (hx : p x = false) : (l ++ x :: r).takeWhile p = l.takeWhile p := by
  induction l with
  | nil => simp [List.takeWhile, hx]
  | cons a l ih =>
    simp only [List.cons_append, List.takeWhile_cons]
    rw [ih]

/-- The target array after a conversion that did not complete cleanly, when the NUL fits
behind the bytes written: those bytes, the NUL, and the old bytes behind it. -/
theorem regfs_utf16to8_stop (conv : TSK_UTF16toUTF8_FN) (utf16 : List uint8_t)
    (utf16_length : Nat) (utf8 : List uint8_t) (utf8_length : Nat)
    (hne : (conv (utf16.take utf16_length) utf8_length).retVal ≠ TSKconversionOK)
    (hroom : (conv (utf16.take utf16_length) utf8_length).written.length < utf8.length) :
    regfs_utf16to8 conv utf16 utf16_length utf8 utf8_length =
      TSK_OK ((conv (utf16.take utf16_length) utf8_length).written ++
        0 :: utf8.drop ((conv (utf16.take utf16_length) utf8_length).written.length + 1)) := by
  unfold regfs_utf16to8
  simp only
  rw [if_pos hne, List.set_append_right _ _ (le_refl _), Nat.sub_self,
    List.drop_eq_getElem_cons hroom, List.set_cons_zero]

/-- C19, as amended: when the converter reports a status other than OK (and the NUL fits
behind the bytes it has written), `regfs_utf16to8` returns `TSK_OK` and stores the NUL
right behind the bytes the converter had written: the output string is those bytes up to
their first NUL, and its first byte is NUL exactly when the converter had written nothing
or had written a NUL first. -/
theorem regfs_utf16to8_failure (conv : TSK_UTF16toUTF8_FN) (utf16 : List uint8_t)
    (utf16_length : Nat) (utf8 : List uint8_t) (utf8_length : Nat)
    (hne : (conv (utf16.take utf16_length) utf8_length).retVal ≠ TSKconversionOK)
    (hroom : (conv (utf16.take utf16_length) utf8_length).written.length < utf8.length) :
    ∃ asc, regfs_utf16to8 conv utf16 utf16_length utf8 utf8_length = TSK_OK asc ∧
      c_string asc = c_string (conv (utf16.take utf16_length) utf8_length).written ∧
      (asc.head? = some 0 ↔
        ((conv (utf16.take utf16_length) utf8_length).written = [] ∨
          (conv (utf16.take utf16_length) utf8_length).written.head? = some 0)) := by
  refine ⟨_, regfs_utf16to8_stop conv utf16 utf16_length utf8 utf8_length hne hroom, ?_, ?_⟩
  · unfold c_string
    exact takeWhile_append_stop _ _ _ _ (by simp)
  · cases (conv (utf16.take utf16_length) utf8_length).written with
    | nil => simp
    | cons a l => simp

/-- C19 as stated fails on the two code units "A", 0xD800 (a high surrogate at the end
of the source): the converter stops with `TSKsourceExhausted` after it has written "A",
and `regfs_utf16to8` leaves "A" in the output, whose first byte is not NUL. -/
theorem regfs_utf16to8_failure_counterexample :
    tsk_UTF16toUTF8 [0x41, 0, 0x00, 0xD8] 8 = ⟨TSKsourceExhausted, [0x41]⟩ ∧
      regfs_utf16to8 tsk_UTF16toUTF8 [0x41, 0, 0x00, 0xD8] 4
          [0xAA, 0xAA, 0xAA, 0xAA, 0xAA, 0xAA, 0xAA, 0xAA] 8 =
        TSK_OK [0x41, 0, 0xAA, 0xAA, 0xAA, 0xAA, 0xAA, 0xAA] := by
  decide

/-- The failure path of C19 on the same input: the output string is "A". -/
theorem regfs_utf16to8_failure_witness :
    ∃ asc, regfs_utf16to8 tsk_UTF16toUTF8 [0x41, 0, 0x00, 0xD8] 4
          [0xAA, 0xAA, 0xAA, 0xAA, 0xAA, 0xAA, 0xAA, 0xAA] 8 = TSK_OK asc ∧
      c_string asc = c_string (tsk_UTF16toUTF8 (List.take 4 [0x41, 0, 0x00, 0xD8]) 8).written ∧
      (asc.head? = some 0 ↔
        ((tsk_UTF16toUTF8 (List.take 4 [0x41, 0, 0x00, 0xD8]) 8).written = [] ∨
          (tsk_UTF16toUTF8 (List.take 4 [0x41, 0, 0x00, 0xD8]) 8).written.head? = some 0)) :=
  regfs_utf16to8_failure tsk_UTF16toUTF8 [0x41, 0, 0x00, 0xD8] 4
    [0xAA, 0xAA, 0xAA, 0xAA, 0xAA, 0xAA, 0xAA, 0xAA] 8 (by decide) (by decide)

/-! ## Decoder errors and the per-record report -/

/-- The key decoder never returns the conversion error: it returns `TSK_OK`, the
corrupt-cell error or the read error. -/
theorem reg_istat_nk_ret (HBIN_SIZE FIRST_HBIN_OFFSET : Nat) (D : REGFS_CELL_NK_DECL)
    (conv : TSK_UTF16toUTF8_FN) (auto : REG_ISTAT_AUTO) (fs : TSK_FS_INFO) (cell : REGFS_CELL)
    (sec_skew : Int) :
    (reg_istat_nk HBIN_SIZE FIRST_HBIN_OFFSET D conv auto fs cell sec_skew).ret = TSK_OK () ∨
      (reg_istat_nk HBIN_SIZE FIRST_HBIN_OFFSET D conv auto fs cell sec_skew).ret =
        TSK_ERR TSK_ERR_FS_INODE_COR ∨
      (reg_istat_nk HBIN_SIZE FIRST_HBIN_OFFSET D conv auto fs cell sec_skew).ret =
        TSK_ERR TSK_ERR_FS_READ := by
  by_cases hlen : cell.length ≤ HBIN_SIZE
  · cases hread : tsk_fs_read fs cell.inum cell.length with
    | none =>
      unfold reg_istat_nk
      rw [if_neg (by omega), hread]
      exact Or.inr (Or.inr rfl)
    | some bytes =>
      by_cases hs : reg_nk_classname_offset D (reg_nk_view auto.buf bytes) = 0xFFFFFFFF
      · rw [reg_istat_nk_sentinel HBIN_SIZE FIRST_HBIN_OFFSET D conv auto fs cell sec_skew bytes
          hlen hread hs]
        rcases reg_istat_nk_name_ret FIRST_HBIN_OFFSET D (reg_nk_view auto.buf bytes) auto.s
          sec_skew [(cell.inum, cell.length)]
          [record_information, record_type TSK_REGFS_RECORD_TYPE_NK, class_name_none] with h | h
        · exact Or.inl h
        · exact Or.inr (Or.inl h)
      · by_cases hl : reg_nk_classname_length D (reg_nk_view auto.buf bytes) ≤ 512
        · cases hc : tsk_fs_read fs
              (reg_nk_classname_addr FIRST_HBIN_OFFSET D (reg_nk_view auto.buf bytes))
              (reg_nk_classname_length D (reg_nk_view auto.buf bytes)) with
          | none =>
            rw [reg_istat_nk_classname_short HBIN_SIZE FIRST_HBIN_OFFSET D conv auto fs cell
              sec_skew bytes hlen hread hs hl hc]
            exact Or.inr (Or.inr rfl)
          | some classname =>
            obtain ⟨asc, _, heq⟩ := reg_istat_nk_classname_read HBIN_SIZE FIRST_HBIN_OFFSET D
              conv auto fs cell sec_skew bytes classname hlen hread hs hl hc
            rw [heq]
            rcases reg_istat_nk_name_ret FIRST_HBIN_OFFSET D (reg_nk_view auto.buf bytes)
              (classname ++ auto.s.drop (reg_nk_classname_length D (reg_nk_view auto.buf bytes)))
              sec_skew
              [(cell.inum, cell.length),
                (reg_nk_classname_addr FIRST_HBIN_OFFSET D (reg_nk_view auto.buf bytes),
                  reg_nk_classname_length D (reg_nk_view auto.buf bytes))]
              [record_information, record_type TSK_REGFS_RECORD_TYPE_NK,
                class_name (c_string asc)] with h | h
            · exact Or.inl h
            · exact Or.inr (Or.inl h)
        · rw [reg_istat_nk_classname_long HBIN_SIZE FIRST_HBIN_OFFSET D conv auto fs cell
            sec_skew bytes hlen hread hs (by omega)]
          exact Or.inr (Or.inl rfl)
  · unfold reg_istat_nk
    rw [if_pos (by omega)]
    exact Or.inr (Or.inl rfl)

/-- The report returns 1 exactly when the load of the cell fails; the value returned by
the decoder does not enter. -/
theorem reg_istat_ret (HBIN_SIZE FIRST_HBIN_OFFSET : Nat) (D : REGFS_CELL_NK_DECL)
    (conv : TSK_UTF16toUTF8_FN) (auto : REG_ISTAT_AUTO) (fs : TSK_FS_INFO) (inum : Nat)
    (sec_skew : Int) :
    ((reg_istat HBIN_SIZE FIRST_HBIN_OFFSET D conv auto fs inum sec_skew).ret = 1 ↔
        ∃ e, (reg_load_cell HBIN_SIZE fs inum).ret = TSK_ERR e) ∧
      ((reg_istat HBIN_SIZE FIRST_HBIN_OFFSET D conv auto fs inum sec_skew).ret = 0 ↔
        ∃ cell, (reg_load_cell HBIN_SIZE fs inum).ret = TSK_OK cell) := by
  unfold reg_istat
  cases h : (reg_load_cell HBIN_SIZE fs inum).ret with
  | TSK_ERR e => simp [h]
  | TSK_OK cell => simp [h]

set_option maxRecDepth 100000 in
/-- C18: on a key cell whose class name (offset 0x80, length 512) is 255 code units "A"
followed by a high surrogate, the converter stops with `TSKsourceExhausted`; the decoder
does not fail: it prints the truncated class name of 255 bytes "A", goes on and returns
`TSK_OK`. -/
theorem reg_istat_nk_conversion_failure :
    (tsk_UTF16toUTF8 classname_lone_surrogate 512).retVal = TSKsourceExhausted ∧
      (reg_istat_nk 4096 4096 nk_decl tsk_UTF16toUTF8 (auto_fill 0)
        (nk_fs (nk_cell (2 ^ 32 - 0x60) 0x80 512 4 [0x52, 0x4F, 0x4F, 0x54])
          classname_lone_surrogate)
        ⟨0x1020, true, 0x60, TSK_REGFS_RECORD_TYPE_NK⟩ 0).ret = TSK_OK () ∧
      (reg_istat_nk 4096 4096 nk_decl tsk_UTF16toUTF8 (auto_fill 0)
        (nk_fs (nk_cell (2 ^ 32 - 0x60) 0x80 512 4 [0x52, 0x4F, 0x4F, 0x54])
          classname_lone_surrogate)
        ⟨0x1020, true, 0x60, TSK_REGFS_RECORD_TYPE_NK⟩ 0).out.take 3 =
        [record_information, record_type TSK_REGFS_RECORD_TYPE_NK,
          class_name (List.replicate 255 0x41)] := by
  decide

set_option maxRecDepth 100000 in
/-- C20: the report of the key cell at 0x1020 that declares the name length 600 returns
0 although `reg_istat_nk` returned the corrupt-cell error; and the report of the unknown
cell at 0x1020 that declares the length 0xFFF, which reaches beyond the end of the image,
returns 0 although `reg_istat_unknown` returned the read error. -/
theorem reg_istat_ignores_decoder :
    ((reg_istat 4096 4096 nk_decl tsk_UTF16toUTF8 (auto_fill 0xAA)
          (nk_fs (nk_cell (2 ^ 32 - 0x60) 0xFFFFFFFF 0 600 []) []) 0x1020 0).ret = 0 ∧
        (reg_istat 4096 4096 nk_decl tsk_UTF16toUTF8 (auto_fill 0xAA)
          (nk_fs (nk_cell (2 ^ 32 - 0x60) 0xFFFFFFFF 0 600 []) []) 0x1020 0).decode.map
            (fun d => d.ret) = some (TSK_ERR TSK_ERR_FS_INODE_COR)) ∧
      ((reg_istat 4096 4096 nk_decl tsk_UTF16toUTF8 (auto_fill 0xAA) (cell_fs (le32 0xFFF))
          0x1020 0).ret = 0 ∧
        (reg_istat 4096 4096 nk_decl tsk_UTF16toUTF8 (auto_fill 0xAA) (cell_fs (le32 0xFFF))
          0x1020 0).decode.map (fun d => d.ret) = some (TSK_ERR TSK_ERR_FS_READ)) := by
  decide

/-! ## The journal operations -/

theorem reg_journal_unsupported_eq (errno : Option TSK_ERR_ENUM) :
    reg_journal_unsupported errno = some TSK_ERR_FS_UNSUPFUNC := rfl

/-- C21: each journal operation, `reg_jblk_walk`, `reg_jentry_walk` and `reg_jopen`,
fails for every argument and every prior content of the error slot: it returns 1, leaves
`TSK_ERR_FS_UNSUPFUNC` in the error slot, issues no read of the image and does not invoke
its callback. -/
theorem reg_journal_unsupported_ops (fs : TSK_FS_INFO) (start_blk end_blk inum : Nat)
    (flags : Int) (errno : Option TSK_ERR_ENUM) :
    reg_jblk_walk fs start_blk end_blk flags errno = ⟨1, some TSK_ERR_FS_UNSUPFUNC, [], 0⟩ ∧
      reg_jentry_walk fs flags errno = ⟨1, some TSK_ERR_FS_UNSUPFUNC, [], 0⟩ ∧
      reg_jopen fs inum errno = ⟨1, some TSK_ERR_FS_UNSUPFUNC, [], 0⟩ := by
  refine ⟨?_, ?_, ?_⟩
  · unfold reg_jblk_walk
    rw [reg_journal_unsupported_eq]
  · unfold reg_jentry_walk
    rw [reg_journal_unsupported_eq]
  · unfold reg_jopen
    rw [reg_journal_unsupported_eq]

/-! ## Fields behind the end of a cell -/

set_option maxRecDepth 100000 in
/-- C22: the key decoder takes fields from behind the bytes it has read.  The key cell at
0x1020 of the first hive has the length 0x50, which ends where its inline name (length 4,
at offset 0x4C of the key structure) starts: the decoder returns `TSK_OK` and prints as
key name the four bytes left in `buf` behind the cell, "AAAA" or "BBBB" according to
what `buf` held on entry.  The key cell of the second hive has the length 8, shorter than
every header field behind the flags: the decoder returns `TSK_OK` with an empty class
name and key name when `buf` held zero bytes, and the corrupt-cell error when it held
0xFF bytes. -/
theorem reg_istat_nk_reads_behind_cell :
    ((reg_load_cell 4096 (nk_fs (nk_cell (2 ^ 32 - 0x50) 0xFFFFFFFF 0 4 []) []) 0x1020).ret =
        TSK_OK ⟨0x1020, true, 0x50, TSK_REGFS_RECORD_TYPE_NK⟩ ∧
      reg_istat_nk 4096 4096 nk_decl tsk_UTF16toUTF8
          ⟨fun _ => 0x41, List.replicate 512 0, List.replicate 512 0⟩
          (nk_fs (nk_cell (2 ^ 32 - 0x50) 0xFFFFFFFF 0 4 []) [])
          ⟨0x1020, true, 0x50, TSK_REGFS_RECORD_TYPE_NK⟩ 0 =
        ⟨TSK_OK (), [(0x1020, 0x50)],
          [record_information, record_type TSK_REGFS_RECORD_TYPE_NK, class_name_none,
            key_name [0x41, 0x41, 0x41, 0x41], root_record true, entry_times, modified,
            parent_record 0x1020]⟩ ∧
      reg_istat_nk 4096 4096 nk_decl tsk_UTF16toUTF8
          ⟨fun _ => 0x42, List.replicate 512 0, List.replicate 512 0⟩
          (nk_fs (nk_cell (2 ^ 32 - 0x50) 0xFFFFFFFF 0 4 []) [])
          ⟨0x1020, true, 0x50, TSK_REGFS_RECORD_TYPE_NK⟩ 0 =
        ⟨TSK_OK (), [(0x1020, 0x50)],
          [record_information, record_type TSK_REGFS_RECORD_TYPE_NK, class_name_none,
            key_name [0x42, 0x42, 0x42, 0x42], root_record true, entry_times, modified,
            parent_record 0x1020]⟩) ∧
    ((reg_load_cell 4096 (nk_fs (le32 (2 ^ 32 - 8) ++ tag_bytes 'n' 'k' ++ [0x2C, 0]) [])
          0x1020).ret =
        TSK_OK ⟨0x1020, true, 8, TSK_REGFS_RECORD_TYPE_NK⟩ ∧
      reg_istat_nk 4096 4096 nk_decl tsk_UTF16toUTF8
          ⟨fun _ => 0, List.replicate 512 0, List.replicate 512 0⟩
          (nk_fs (le32 (2 ^ 32 - 8) ++ tag_bytes 'n' 'k' ++ [0x2C, 0]) [])
          ⟨0x1020, true, 8, TSK_REGFS_RECORD_TYPE_NK⟩ 0 =
        ⟨TSK_OK (), [(0x1020, 8), (0x1004, 0)],
          [record_information, record_type TSK_REGFS_RECORD_TYPE_NK, class_name [],
            key_name [], root_record true, entry_times, modified, parent_record 0x1000]⟩ ∧
      reg_istat_nk 4096 4096 nk_decl tsk_UTF16toUTF8
          ⟨fun _ => 0xFF, List.replicate 512 0, List.replicate 512 0⟩
          (nk_fs (le32 (2 ^ 32 - 8) ++ tag_bytes 'n' 'k' ++ [0x2C, 0]) [])
          ⟨0x1020, true, 8, TSK_REGFS_RECORD_TYPE_NK⟩ 0 =
        ⟨TSK_ERR TSK_ERR_FS_INODE_COR, [(0x1020, 8)],
          [record_information, record_type TSK_REGFS_RECORD_TYPE_NK, class_name_none]⟩) := by
  decide

/-! ## The bin of a walk -/

section WalkBin

variable (HBIN_SIZE : Nat) (fs : TSK_FS_INFO) (a_end_blk : Nat)
  (a_flags : TSK_FS_BLOCK_WALK_FLAG_ENUM) (calls : List (Nat × TSK_FS_BLOCK_FLAG_ENUM))

theorem reg_block_walk_iters_done (fuel addr cur : Nat) (h : ¬ addr < a_end_blk) :
    reg_block_walk_iters HBIN_SIZE fs a_end_blk (fuel + 1) addr cur = [] := by
  rw [reg_block_walk_iters, if_neg h]

theorem reg_block_walk_iters_err (fuel addr cur : Nat) (e : TSK_ERR_ENUM)
    (h : addr < a_end_blk) (hl : (reg_load_cell HBIN_SIZE fs addr).ret = TSK_ERR e) :
    reg_block_walk_iters HBIN_SIZE fs a_end_blk (fuel + 1) addr cur =
      [⟨addr, cur, reg_load_cell HBIN_SIZE fs addr⟩] := by
  rw [reg_block_walk_iters, if_pos h]
  simp only [hl]

theorem reg_block_walk_iters_overrun (fuel addr cur : Nat) (cell : REGFS_CELL)
    (h : addr < a_end_blk) (hl : (reg_load_cell HBIN_SIZE fs addr).ret = TSK_OK cell)
    (ho : reg_walk_overrun HBIN_SIZE addr cell.length cur) :
    reg_block_walk_iters HBIN_SIZE fs a_end_blk (fuel + 1) addr cur =
      [⟨addr, cur, reg_load_cell HBIN_SIZE fs addr⟩] := by
  rw [reg_block_walk_iters, if_pos h]
  simp only [hl, ho, if_true]

theorem reg_block_walk_iters_step (fuel addr cur : Nat) (cell : REGFS_CELL)
    (h : addr < a_end_blk) (hl : (reg_load_cell HBIN_SIZE fs addr).ret = TSK_OK cell)
    (ho : ¬ reg_walk_overrun HBIN_SIZE addr cell.length cur) :
    reg_block_walk_iters HBIN_SIZE fs a_end_blk (fuel + 1) addr cur =
      ⟨addr, cur, reg_load_cell HBIN_SIZE fs addr⟩ ::
        reg_block_walk_iters HBIN_SIZE fs a_end_blk fuel
          (reg_walk_next_addr HBIN_SIZE addr cell.length cur)
          (reg_walk_next_hbin HBIN_SIZE addr cell.length cur) := by
  rw [reg_block_walk_iters, if_pos h]
  simp only [hl, ho, if_false]

/-- The iterations of a finished loop are the iterations the loop runs through with the
same fuel. -/
theorem reg_block_walk_loop_iters (fuel : Nat) : ∀ (addr cur : Nat) (r : REG_WALK),
    reg_block_walk_loop HBIN_SIZE fs a_end_blk a_flags calls fuel addr cur = some r →
    r.iters = reg_block_walk_iters HBIN_SIZE fs a_end_blk fuel addr cur := by
  induction fuel with
  | zero =>
    intro addr cur r h
    simp [reg_block_walk_loop] at h
  | succ fuel ih =>
    intro addr cur r h
    rcases reg_block_walk_loop_cases HBIN_SIZE fs a_end_blk a_flags calls fuel addr cur r h with
      ⟨ha, hr⟩ | ⟨ha, e, hl, hr⟩ | ⟨ha, cell, hl, ho, hr⟩ | ⟨ha, cell, r1, hl, ho, hn, hr⟩
    · subst hr
      rw [reg_block_walk_iters_done HBIN_SIZE fs a_end_blk fuel addr cur ha]
    · subst hr
      rw [reg_block_walk_iters_err HBIN_SIZE fs a_end_blk fuel addr cur e ha hl]
    · subst hr
      rw [reg_block_walk_iters_overrun HBIN_SIZE fs a_end_blk fuel addr cur cell ha hl ho]
    · subst hr
      rw [reg_block_walk_iters_step HBIN_SIZE fs a_end_blk fuel addr cur cell ha hl ho,
        ← ih _ _ r1 hn]

end WalkBin

section WalkAddresses

variable (HBIN_SIZE : Nat) (fs : TSK_FS_INFO) (a_end_blk : Nat)

/-- Outside `[first_block, last_block]` the loader refuses the address without a read. -/
theorem reg_load_cell_refused (inum : Nat)
    (h : inum < fs.first_block ∨ inum > fs.last_block) :
    reg_load_cell HBIN_SIZE fs inum = ⟨TSK_ERR TSK_ERR_FS_BLK_NUM, []⟩ := by
  unfold reg_load_cell
  rw [if_pos h]

/-- A successful load has issued its reads. -/
theorem reg_load_cell_ok_reads (inum : Nat) (cell : REGFS_CELL)
    (h : (reg_load_cell HBIN_SIZE fs inum).ret = TSK_OK cell) :
    (reg_load_cell HBIN_SIZE fs inum).reads ≠ [] := by
  obtain ⟨h1, h2, h3, h4, _⟩ := reg_load_cell_ok_inv HBIN_SIZE fs inum cell h
  rw [reg_load_cell_ok HBIN_SIZE fs inum h1 h2 h3 h4]
  simp

/-- After a cell that passes the overrun test, either the cursor has moved on by the
length of the cell and the bin start has stayed, or the header skip has been taken; the
skip is taken only when the 32-bit sum `current_hbin_start + HBIN_SIZE` is 0, and it
leaves the cursor 0x20 and the bin start 0. -/
theorem reg_walk_next_cases (addr length cur : Nat)
    (ho : ¬ reg_walk_overrun HBIN_SIZE addr length cur) :
    (reg_walk_next_addr HBIN_SIZE addr length cur = addr + length ∧
        reg_walk_next_hbin HBIN_SIZE addr length cur = cur) ∨
      ((cur + HBIN_SIZE) % 2 ^ 32 = 0 ∧ 0 < addr + length ∧
        reg_walk_next_addr HBIN_SIZE addr length cur = 0x20 ∧
        reg_walk_next_hbin HBIN_SIZE addr length cur = 0) := by
  unfold reg_walk_overrun u32 at ho
  unfold reg_walk_next_addr reg_walk_next_hbin u32
  by_cases hs : addr + length > (cur + HBIN_SIZE) % 2 ^ 32
  · right
    have h0 : (cur + HBIN_SIZE) % 2 ^ 32 = 0 := by omega
    rw [if_pos hs, if_pos hs, h0]
    exact ⟨rfl, by omega, by norm_num, rfl⟩
  · left
    rw [if_neg hs, if_neg hs]
    exact ⟨rfl, rfl⟩

/-- From a cursor outside `[first_block, last_block]` the loop performs at most one
iteration, the refused load. -/
theorem reg_block_walk_iters_refused (fuel addr cur : Nat)
    (h : addr < fs.first_block ∨ addr > fs.last_block) :
    ∀ it ∈ reg_block_walk_iters HBIN_SIZE fs a_end_blk fuel addr cur,
      it = ⟨addr, cur, ⟨TSK_ERR TSK_ERR_FS_BLK_NUM, []⟩⟩ := by
  intro it hit
  have hl := reg_load_cell_refused HBIN_SIZE fs addr h
  cases fuel with
  | zero => simp [reg_block_walk_iters] at hit
  | succ fuel =>
    by_cases ha : addr < a_end_blk
    · rw [reg_block_walk_iters_err HBIN_SIZE fs a_end_blk fuel addr cur TSK_ERR_FS_BLK_NUM ha
        (by rw [hl]), List.mem_singleton, hl] at hit
      exact hit
    · rw [reg_block_walk_iters_done HBIN_SIZE fs a_end_blk fuel addr cur ha] at hit
      simp at hit

/-- In a hive whose first cell lies above 0x20, every iteration of the loop, finished or
not, loads at a cursor below `a_end_blk`, and that cursor is not below the one the loop
began with, unless the iteration is the refused load at 0x20 that follows a header
skip. -/
theorem reg_block_walk_iters_addr (hf : 0x20 < fs.first_block) (fuel : Nat) :
    ∀ (addr cur : Nat), ∀ it ∈ reg_block_walk_iters HBIN_SIZE fs a_end_blk fuel addr cur,
      it.load = reg_load_cell HBIN_SIZE fs it.addr ∧ it.addr < a_end_blk ∧
      (addr ≤ it.addr ∨ it = ⟨0x20, 0, ⟨TSK_ERR TSK_ERR_FS_BLK_NUM, []⟩⟩) := by
  induction fuel with
  | zero =>
    intro addr cur it hit
    simp [reg_block_walk_iters] at hit
  | succ fuel ih =>
    intro addr cur it hit
    have key : ∀ it : REG_WALK_ITER, it = ⟨addr, cur, reg_load_cell HBIN_SIZE fs addr⟩ →
        addr < a_end_blk →
        it.load = reg_load_cell HBIN_SIZE fs it.addr ∧ it.addr < a_end_blk ∧
        (addr ≤ it.addr ∨ it = ⟨0x20, 0, ⟨TSK_ERR TSK_ERR_FS_BLK_NUM, []⟩⟩) := by
      intro it hit ha
      subst hit
      exact ⟨rfl, ha, Or.inl (le_refl _)⟩
    by_cases ha : addr < a_end_blk
    · cases hl : (reg_load_cell HBIN_SIZE fs addr).ret with
      | TSK_ERR e =>
        rw [reg_block_walk_iters_err HBIN_SIZE fs a_end_blk fuel addr cur e ha hl,
          List.mem_singleton] at hit
        exact key it hit ha
      | TSK_OK cell =>
        by_cases ho : reg_walk_overrun HBIN_SIZE addr cell.length cur
        · rw [reg_block_walk_iters_overrun HBIN_SIZE fs a_end_blk fuel addr cur cell ha hl ho,
            List.mem_singleton] at hit
          exact key it hit ha
        · rw [reg_block_walk_iters_step HBIN_SIZE fs a_end_blk fuel addr cur cell ha hl ho,
            List.mem_cons] at hit
          rcases hit with hit | hit
          · exact key it hit ha
          · have h2 := ih _ _ it hit
            refine ⟨h2.1, h2.2.1, ?_⟩
            rcases reg_walk_next_cases HBIN_SIZE addr cell.length cur ho with
              ⟨e1, _⟩ | ⟨_, _, e1, e2⟩
            · rcases h2.2.2 with h3 | h3
              · rw [e1] at h3
                exact Or.inl (by omega)
              · exact Or.inr h3
            · rw [e1, e2] at hit
              exact Or.inr (reg_block_walk_iters_refused HBIN_SIZE fs a_end_blk fuel 0x20 0
                (Or.inl hf) it hit)
    · rw [reg_block_walk_iters_done HBIN_SIZE fs a_end_blk fuel addr cur ha] at hit
      simp at hit

end WalkAddresses

/-- C9: in a hive whose `first_block` lies above 0x20, as in every hive that
`regfs_open` sets up behind a header (`first_block = FIRST_HBIN_OFFSET + 0x20`), every
iteration of a walk over `[a_start_blk, a_end_blk)`, in a run that finishes or not,
calls the loader at a cursor below `a_end_blk`; and the cursor is at least
`a_start_blk`, except for the call at 0x20 that follows a header skip, which the loader
refuses with the block-number error and without a read.  So every cell that is loaded,
and every address that is read for a load, satisfies `a_start_blk ≤ addr < a_end_blk`.
A finished walk has only such iterations. -/
theorem reg_block_walk_load_addresses (HBIN_SIZE : Nat) (fs : TSK_FS_INFO)
    (a_start_blk a_end_blk : Nat) (hf : 0x20 < fs.first_block) :
    (∀ (fuel : Nat),
      ∀ it ∈ reg_block_walk_iters HBIN_SIZE fs a_end_blk fuel a_start_blk
          (u32 (a_start_blk - a_start_blk % HBIN_SIZE)),
        it.load = reg_load_cell HBIN_SIZE fs it.addr ∧ it.addr < a_end_blk ∧
        (a_start_blk ≤ it.addr ∨ it = ⟨0x20, 0, ⟨TSK_ERR TSK_ERR_FS_BLK_NUM, []⟩⟩) ∧
        (∀ cell, it.load.ret = TSK_OK cell → a_start_blk ≤ it.addr) ∧
        (it.load.reads ≠ [] → a_start_blk ≤ it.addr)) ∧
    (∀ (a_flags : TSK_FS_BLOCK_WALK_FLAG_ENUM) (fuel : Nat) (r : REG_WALK),
      reg_block_walk HBIN_SIZE fs a_start_blk a_end_blk a_flags fuel = some r →
      ∀ it ∈ r.iters, it ∈ reg_block_walk_iters HBIN_SIZE fs a_end_blk fuel a_start_blk
        (u32 (a_start_blk - a_start_blk % HBIN_SIZE))) := by
  constructor
  · intro fuel it hit
    obtain ⟨h1, h2, h3⟩ :=
      reg_block_walk_iters_addr HBIN_SIZE fs a_end_blk hf fuel a_start_blk _ it hit
    refine ⟨h1, h2, h3, fun cell hc => ?_, fun hr => ?_⟩
    · rcases h3 with h3 | h3
      · exact h3
      · rw [h3] at hc
        cases hc
    · rcases h3 with h3 | h3
      · exact h3
      · rw [h3] at hr
        exact absurd rfl hr
  · intro a_flags fuel r hw it hit
    unfold reg_block_walk at hw
    by_cases h1 : a_start_blk < fs.first_block ∨ a_start_blk > fs.last_block
    · rw [if_pos h1] at hw
      cases hw
      simp at hit
    · rw [if_neg h1] at hw
      by_cases h2 : a_end_blk < fs.first_block ∨ a_end_blk > fs.last_block
      · rw [if_pos h2] at hw
        cases hw
        simp at hit
      · rw [if_neg h2] at hw
        rw [← reg_block_walk_loop_iters HBIN_SIZE fs a_end_blk _ _ fuel _ _ r hw]
        exact hit

set_option maxRecDepth 100000 in
/-- The hive of `edge_hive_img` as `regfs_open` sets it up for `HBIN_SIZE` =
`FIRST_HBIN_OFFSET` = 4096: `first_block` is 0x1020 and `last_block` is
0xFFFFEFFF + 0x1000 = 0xFFFFFFFF. -/
theorem regfs_open_edge_hive :
    regfs_open 4096 4096 0x66676572 regf_decl edge_hive_img true =
      some ⟨0x1020, 0xFFFFFFFF, edge_hive_img⟩ := by
  unfold regfs_open
  rw [if_neg (by decide)]
  have hl : (reg_load_regf regf_decl 0x66676572 ⟨0, 0, edge_hive_img⟩).ret =
      TSK_OK (image_bytes ⟨0, 0, edge_hive_img⟩ 0 0x200) := by decide
  rw [hl]
  have hv : u32 (tsk_getu32 ((image_bytes ⟨0, 0, edge_hive_img⟩ 0 0x200).drop
      regf_decl.last_hbin_offset) + 4096) = 0xFFFFFFFF := by decide
  simp only [hv]

set_option maxRecDepth 100000 in
/-- The address bounds of C9 at the end of the 32-bit address space: `regfs_open` sets up
the hive of `edge_hive_img` with `first_block` = 0x1020 and `last_block` = 0xFFFFFFFF.
The walk over `[0xFFFFF020, 0xFFFFFFFF)` loads the cell at 0xFFFFF020 and takes the
header skip; the call of the loader at 0x20 is refused without a read, and the cell
that was loaded lies inside the range. -/
theorem reg_block_walk_load_addresses_witness :
    0x20 < (⟨0x1020, 0xFFFFFFFF, edge_hive_img⟩ : TSK_FS_INFO).first_block ∧
      regfs_open 4096 4096 0x66676572 regf_decl edge_hive_img true =
        some ⟨0x1020, 0xFFFFFFFF, edge_hive_img⟩ ∧
      reg_block_walk 4096 ⟨0x1020, 0xFFFFFFFF, edge_hive_img⟩ 0xFFFFF020 0xFFFFFFFF
          ⟨true, true, true, true⟩ 3 =
        some ⟨1, some TSK_ERR_FS_BLK_NUM, ⟨true, true, true, true⟩,
          [⟨0xFFFFF020, 0xFFFFF000,
              ⟨TSK_OK ⟨0xFFFFF020, false, 0x20, TSK_REGFS_RECORD_TYPE_UNKNOWN⟩,
                [(0xFFFFF020, 4), (0xFFFFF024, 2)]⟩⟩,
            ⟨0x20, 0, ⟨TSK_ERR TSK_ERR_FS_BLK_NUM, []⟩⟩], []⟩ ∧
      (0xFFFFF020 ≤ 0xFFFFF020 ∧ 0xFFFFF020 < 0xFFFFFFFF) :=
  have h := reg_block_walk_load_addresses 4096 ⟨0x1020, 0xFFFFFFFF, edge_hive_img⟩
    0xFFFFF020 0xFFFFFFFF (by decide)
  have hw : reg_block_walk 4096 ⟨0x1020, 0xFFFFFFFF, edge_hive_img⟩ 0xFFFFF020 0xFFFFFFFF
      ⟨true, true, true, true⟩ 3 =
      some ⟨1, some TSK_ERR_FS_BLK_NUM, ⟨true, true, true, true⟩,
        [⟨0xFFFFF020, 0xFFFFF000,
            ⟨TSK_OK ⟨0xFFFFF020, false, 0x20, TSK_REGFS_RECORD_TYPE_UNKNOWN⟩,
              [(0xFFFFF020, 4), (0xFFFFF024, 2)]⟩⟩,
          ⟨0x20, 0, ⟨TSK_ERR TSK_ERR_FS_BLK_NUM, []⟩⟩], []⟩ := by decide
  have hi := h.1 3 _ (h.2 _ 3 _ hw
    ⟨0xFFFFF020, 0xFFFFF000,
      ⟨TSK_OK ⟨0xFFFFF020, false, 0x20, TSK_REGFS_RECORD_TYPE_UNKNOWN⟩,
        [(0xFFFFF020, 4), (0xFFFFF024, 2)]⟩⟩ (by simp))
  ⟨by decide, regfs_open_edge_hive, hw, hi.2.2.2.1 _ rfl, hi.2.1⟩

/-! ## Termination of a walk -/

section WalkTermination

variable (HBIN_SIZE : Nat) (fs : TSK_FS_INFO) (a_end_blk : Nat)
  (a_flags : TSK_FS_BLOCK_WALK_FLAG_ENUM) (calls : List (Nat × TSK_FS_BLOCK_FLAG_ENUM))

end WalkTermination

end Regfs
